import Mathlib

/-!
# actiontec-insights: the status decoder and the acquisition protocol

A shallow embedding of `src/actiontec/status.go` and `src/actiontec/get.go`.

Conventions of the embedding.

* A Go `string` is a `Str`, a list of characters.  Every delimiter the decoder
  looks for is an ASCII character, so splitting the character sequence and
  splitting the UTF-8 byte sequence give the same pieces.
* `uint64` values are natural numbers; the arithmetic of `strconv.ParseUint` is
  written with its reductions modulo `2^64`.  A `time.Duration` is an integer
  count of nanoseconds, and the `int64` product that builds it wraps.
* A Go function returning `(T, error)` returns a pair `T × Option Err`; the
  first component is whatever the Go function leaves in its result variable,
  also when the error is set.  A pointer result is an `Option`.
* A run-time panic (an index out of range) is the outcome `Go.panic`.
* `float64` and `strconv.ParseFloat` are a parameter, `Float64Lib`.
* The HTTP client is a parameter: a function from the requests issued so far
  and the next request to the reply.  Functions that talk to the modem take the
  list of requests issued so far and return it extended, in the order issued.
-/

namespace Actiontec

/-! ## Strings and the library functions the decoder calls -/

abbrev Str := List Char

/-- Argument of a formatted error message. -/
inductive ErrArg where
  | int (n : Int)
  | str (s : Str)
  deriving DecidableEq

/-- The two failure kinds of `strconv`: `ErrSyntax` and `ErrRange`. -/
inductive NumErrKind where
  | invalid
  | outOfRange
  deriving DecidableEq

/-- Go `error` values: `fmt.Errorf(format, arg)`, `errors.New(text)`, a
`*strconv.NumError`, or an error of the HTTP stack (opaque, told apart by a
code). -/
inductive Err where
  | errorf (format : String) (arg : ErrArg)
  | new (text : String)
  | num (fn : String) (num : Str) (kind : NumErrKind)
  | http (code : Nat)
  deriving DecidableEq

/-- Outcome of running a Go function: it returns, or it panics. -/
inductive Go (α : Type) where
  | ret (a : α)
  | panic
  deriving DecidableEq

/-- Scanning loop of `strings.Split` for a non-empty separator: `skip` counts
the characters of a matched separator still to be passed over, `acc` holds the
current piece in reverse. -/
def splitAux (sep : Str) : Str → Nat → Str → List Str
  | [], _, acc => [acc.reverse]
  | _ :: cs, skip + 1, acc => splitAux sep cs skip acc
  | c :: cs, 0, acc =>
    if sep.isPrefixOf (c :: cs) then acc.reverse :: splitAux sep cs (sep.length - 1) []
    else splitAux sep cs 0 (c :: acc)

/-- Go `strings.Split(s, sep)`: the pieces of `s` between the non-overlapping
occurrences of `sep`, found left to right; an empty `sep` splits after every
character. -/
def Split (s sep : Str) : List Str :=
  if sep = [] then s.map (fun c => [c]) else splitAux sep s 0 []

/-- Go `unicode.IsSpace`. -/
def isSpace (c : Char) : Bool :=
  let n := c.toNat
  (9 ≤ n ∧ n ≤ 13) ∨ n = 32 ∨ n = 133 ∨ n = 160 ∨ n = 5760 ∨ (8192 ≤ n ∧ n ≤ 8202) ∨
    n = 8232 ∨ n = 8233 ∨ n = 8239 ∨ n = 8287 ∨ n = 12288

/-- Go `strings.TrimSpace`. -/
def TrimSpace (s : Str) : Str :=
  ((s.dropWhile isSpace).reverse.dropWhile isSpace).reverse

/-- The largest `uint64`, `2^64 - 1`. -/
def maxUint64 : Nat := 18446744073709551615

/-- Digit loop of `strconv.ParseUint(s, 10, 64)`; `s0` is the whole input, kept
for the error value.  `cutoff` is `maxUint64/10 + 1`. -/
def ParseUintLoop (s0 : Str) : Str → Nat → Nat × Option Err
  | [], n => (n, none)
  | c :: cs, n =>
    if 48 ≤ c.toNat ∧ c.toNat ≤ 57 then
      if n ≥ maxUint64 / 10 + 1 then (maxUint64, some (.num "ParseUint" s0 .outOfRange))
      else
        let n10 := n * 10 % 2 ^ 64
        let n1 := (n10 + (c.toNat - 48)) % 2 ^ 64
        if n1 < n10 ∨ n1 > maxUint64 then (maxUint64, some (.num "ParseUint" s0 .outOfRange))
        else ParseUintLoop s0 cs n1
    else (0, some (.num "ParseUint" s0 .invalid))

/-- Go `strconv.ParseUint(s, 10, 64)`. -/
def ParseUint (s : Str) : Nat × Option Err :=
  if s = [] then (0, some (.num "ParseUint" s .invalid)) else ParseUintLoop s s 0

/-- Go `strconv.ParseInt(s, 10, 64)`: an optional sign, then `ParseUint`, then
the range check against `2^63`. -/
def ParseInt (s0 : Str) : Int × Option Err :=
  match s0 with
  | [] => (0, some (.num "ParseInt" s0 .invalid))
  | c :: cs =>
    let neg := c = '-'
    let s := if c = '+' ∨ c = '-' then cs else s0
    match ParseUint s with
    | (_, some (.num _ _ .invalid)) => (0, some (.num "ParseInt" s0 .invalid))
    | (un, _) =>
      if ¬ neg ∧ un ≥ 2 ^ 63 then (2 ^ 63 - 1, some (.num "ParseInt" s0 .outOfRange))
      else if neg ∧ un > 2 ^ 63 then (-(2 ^ 63), some (.num "ParseInt" s0 .outOfRange))
      else (if neg then -(un : Int) else (un : Int), none)

/-- Two's-complement reduction of an integer to `int64`. -/
def wrapInt64 (x : Int) : Int := (x + 2 ^ 63) % 2 ^ 64 - 2 ^ 63

/-- Go `strconv.Itoa`. -/
def Itoa (n : Int) : Str :=
  if n < 0 then '-' :: Nat.toDigits 10 n.natAbs else Nat.toDigits 10 n.natAbs

/-- The `float64` type with `strconv.ParseFloat(s, 64)`, taken as a parameter:
`zero` is the zero value of `float64`. -/
structure Float64Lib where
  F : Type
  zero : F
  ParseFloat : Str → F × Option Err

/-! ## Data model (`status.go`) -/

inductive ChannelType where
  | Interleaved
  | FastChannel
  deriving DecidableEq

inductive State where
  | Up
  | EstablishingLink
  | Down
  deriving DecidableEq

structure LinkFailures where
  Power : Nat
  Signal : Nat
  Margin : Nat
  Train : Nat
  deriving DecidableEq

structure Packets where
  Count : Nat
  Errors : Nat
  deriving DecidableEq

structure PacketPair where
  Received : Packets
  Transmitted : Packets
  deriving DecidableEq

structure FloatPair (F : Type) where
  Up : F
  Down : F
  deriving DecidableEq

structure UintPair where
  Up : Nat
  Down : Nat
  deriving DecidableEq

structure Rates where
  Up : Nat
  Down : Nat
  deriving DecidableEq

structure LineRate where
  Rates : Actiontec.Rates
  State : Actiontec.State
  deriving DecidableEq

structure LineStats (F : Type) where
  State : Actiontec.State
  Rates : Actiontec.Rates
  SignalNoiseMargin : UintPair
  Attenuation : FloatPair F
  Retrains : Nat
  Uptime : Int
  deriving DecidableEq

structure Status (F : Type) where
  TotalRate : Rates
  SoftwareVersion : Str
  LineStats : Actiontec.LineStats F
  TotalRetrains : Nat
  Failures : LinkFailures
  UnavailableSeconds : Int
  ChannelType : Actiontec.ChannelType
  ModemUptime : Int
  Packets : PacketPair
  LineRates : List LineRate
  deriving DecidableEq

/-! ## Sub-decoders (`status.go`) -/

/-- One half of the attenuation field: the text after the `)`, which must be
the only one, is trimmed and parsed as a float. -/
def stringToAttenuationFloat (L : Float64Lib) (s : Str) : L.F × Option Err :=
  let fields := Split s ")".toList
  if fields.length ≠ 2 then
    (L.zero, some (.errorf "Unexpected number of fields in attenuation string: %d"
      (.int fields.length)))
  else L.ParseFloat (TrimSpace (fields.getD 1 []))

/-- The attenuation field: what follows the first `,` is dropped, the rest is
split on ` /` into the down half and the up half. -/
def stringToAttenuation (L : Float64Lib) (s : Str) : FloatPair L.F × Option Err :=
  let fields := Split ((Split s ",".toList).getD 0 []) " /".toList
  if fields.length ≠ 2 then
    (⟨L.zero, L.zero⟩, some (.errorf "Unexpected number of fields in a pair: %d"
      (.int fields.length)))
  else
    match stringToAttenuationFloat L (fields.getD 0 []) with
    | (down, some e) => ({ Up := L.zero, Down := down }, some e)
    | (down, none) =>
      match stringToAttenuationFloat L (fields.getD 1 []) with
      | (up, err) => ({ Up := up, Down := down }, err)

/-- A count of seconds as a duration: `time.Duration(seconds) * time.Second`,
an `int64` product. -/
def stringSecondsToDuration (s : Str) : Int × Option Err :=
  match ParseInt s with
  | (seconds, none) => (wrapInt64 (seconds * 1000000000), none)
  | (_, some e) => (0, some e)

/-- The channel type token: `0` or `1`. -/
def stringToChannelType (s : Str) : ChannelType × Option Err :=
  if s = "0".toList then (.Interleaved, none)
  else if s = "1".toList then (.FastChannel, none)
  else (.Interleaved, some (.errorf "Unknown channel type: %s" (.str s)))

/-- The state token: `Up`, `EstablishingLink` or `Down`. -/
def stringToState (s : Str) : State × Option Err :=
  if s = "Up".toList then (.Up, none)
  else if s = "EstablishingLink".toList then (.EstablishingLink, none)
  else if s = "Down".toList then (.Down, none)
  else (.Down, some (.errorf "Unknown state: %s" (.str s)))

/-- A line-rate record `State|Up|Down`. -/
def stringToLineRate (s : Str) : LineRate × Option Err :=
  let fields := Split s "|".toList
  if fields.length < 3 then
    (⟨⟨0, 0⟩, .Up⟩, some (.errorf "Unexpected number of fields in line rate: %d"
      (.int fields.length)))
  else
    match stringToState (fields.getD 0 []) with
    | (st, some e) => (⟨⟨0, 0⟩, st⟩, some e)
    | (st, none) =>
      match ParseUint (fields.getD 1 []) with
      | (up, some e) => (⟨⟨up, 0⟩, st⟩, some e)
      | (up, none) =>
        match ParseUint (fields.getD 2 []) with
        | (down, err) => (⟨⟨up, down⟩, st⟩, err)

/-- A slash pair `Down/Up`. -/
def stringToUintPair (s : Str) : UintPair × Option Err :=
  let fields := Split s "/".toList
  if fields.length ≠ 2 then
    (⟨0, 0⟩, some (.errorf "Unexpected number of fields in a pair: %d" (.int fields.length)))
  else
    match ParseUint (fields.getD 0 []) with
    | (down, some e) => ({ Up := 0, Down := down }, some e)
    | (down, none) =>
      match ParseUint (fields.getD 1 []) with
      | (up, err) => ({ Up := up, Down := down }, err)

/-- The zero value of `LineStats`. -/
def LineStats.zero (L : Float64Lib) : LineStats L.F :=
  ⟨.Up, ⟨0, 0⟩, ⟨0, 0⟩, ⟨L.zero, L.zero⟩, 0, 0⟩

/-- A line-stats record: state, a tag that is not read, down and up rate,
signal-to-noise pair, attenuation, retrains and uptime in seconds. -/
def stringToLineStats (L : Float64Lib) (s : Str) : LineStats L.F × Option Err :=
  let fields := Split s "|".toList
  if fields.length < 8 then
    (LineStats.zero L, some (.errorf "Unexpected number of fields in line stats: %d"
      (.int fields.length)))
  else
    match stringToState (fields.getD 0 []) with
    | (st, some e) => ({ LineStats.zero L with State := st }, some e)
    | (st, none) =>
    match ParseUint (fields.getD 2 []) with
    | (down, some e) => ({ LineStats.zero L with State := st, Rates := ⟨0, down⟩ }, some e)
    | (down, none) =>
    match ParseUint (fields.getD 3 []) with
    | (up, some e) => ({ LineStats.zero L with State := st, Rates := ⟨up, down⟩ }, some e)
    | (up, none) =>
    match stringToUintPair (fields.getD 4 []) with
    | (snr, some e) =>
      ({ LineStats.zero L with State := st, Rates := ⟨up, down⟩, SignalNoiseMargin := snr }, some e)
    | (snr, none) =>
    match stringToAttenuation L (fields.getD 5 []) with
    | (att, some e) => (⟨st, ⟨up, down⟩, snr, att, 0, 0⟩, some e)
    | (att, none) =>
    match ParseUint (fields.getD 6 []) with
    | (retrains, some e) => (⟨st, ⟨up, down⟩, snr, att, retrains, 0⟩, some e)
    | (retrains, none) =>
    match stringSecondsToDuration (fields.getD 7 []) with
    | (uptime, err) => (⟨st, ⟨up, down⟩, snr, att, retrains, uptime⟩, err)

/-- The decoder of the packet counters.  The Go function indexes `fields[0]` to
`fields[3]` without looking at `len(fields)`: an index past the end panics. -/
def stringToPackets (s : Str) : Go (PacketPair × Option Err) :=
  let fields := Split s "|".toList
  match fields[0]? with
  | none => .panic
  | some f0 =>
  match ParseUint f0 with
  | (rc, some e) => .ret (⟨⟨rc, 0⟩, ⟨0, 0⟩⟩, some e)
  | (rc, none) =>
  match fields[1]? with
  | none => .panic
  | some f1 =>
  match ParseUint f1 with
  | (re, some e) => .ret (⟨⟨rc, re⟩, ⟨0, 0⟩⟩, some e)
  | (re, none) =>
  match fields[2]? with
  | none => .panic
  | some f2 =>
  match ParseUint f2 with
  | (tc, some e) => .ret (⟨⟨rc, re⟩, ⟨tc, 0⟩⟩, some e)
  | (tc, none) =>
  match fields[3]? with
  | none => .panic
  | some f3 =>
  match ParseUint f3 with
  | (te, err) => .ret (⟨⟨rc, re⟩, ⟨tc, te⟩⟩, err)

/-! ## The top-level decoder (`status.go`) -/

/-- The loop `for i := 25; i < len(fields)-1; i++` of `ParseStatus`, run over
the fields it visits, in order: each is decoded as a line rate and appended to
`acc`; the first error stops the loop. -/
def lineRatesLoop : List Str → List LineRate → List LineRate × Option Err
  | [], acc => (acc, none)
  | f :: fs, acc =>
    match stringToLineRate f with
    | (_, some e) => (acc, some e)
    | (rate, none) => lineRatesLoop fs (acc ++ [rate])

/-- The fields of a status blob, `strings.Split(input, "+")`. -/
def statusFields (input : Str) : List Str := Split input "+".toList

/-- Given a blob of status data, parse into a status object.  Every error path
of the Go function is `return nil, err`. -/
def ParseStatus (L : Float64Lib) (input : Str) : Go (Option (Status L.F) × Option Err) :=
  let fields := statusFields input
  if fields.length < 27 then
    .ret (none, some (.errorf "Unexpected number of fields: %d" (.int fields.length)))
  else
    match ParseUint (fields.getD 1 []) with
    | (_, some e) => .ret (none, some e)
    | (up, none) =>
    match ParseUint (fields.getD 2 []) with
    | (_, some e) => .ret (none, some e)
    | (down, none) =>
    match stringToLineStats L (fields.getD 4 []) with
    | (_, some e) => .ret (none, some e)
    | (lineStats, none) =>
    match ParseUint (fields.getD 5 []) with
    | (_, some e) => .ret (none, some e)
    | (totalRetrains, none) =>
    match ParseUint (fields.getD 6 []) with
    | (_, some e) => .ret (none, some e)
    | (power, none) =>
    match ParseUint (fields.getD 7 []) with
    | (_, some e) => .ret (none, some e)
    | (signal, none) =>
    match ParseUint (fields.getD 8 []) with
    | (_, some e) => .ret (none, some e)
    | (margin, none) =>
    match ParseUint (fields.getD 9 []) with
    | (_, some e) => .ret (none, some e)
    | (train, none) =>
    match stringSecondsToDuration (fields.getD 10 []) with
    | (_, some e) => .ret (none, some e)
    | (unavailable, none) =>
    match stringToChannelType (fields.getD 11 []) with
    | (_, some e) => .ret (none, some e)
    | (channelType, none) =>
    match stringSecondsToDuration (fields.getD 12 []) with
    | (_, some e) => .ret (none, some e)
    | (modemUptime, none) =>
    match stringToPackets (fields.getD 13 []) with
    | .panic => .panic
    | .ret (_, some e) => .ret (none, some e)
    | .ret (packets, none) =>
    match lineRatesLoop ((fields.take (fields.length - 1)).drop 25) [] with
    | (_, some e) => .ret (none, some e)
    | (lineRates, none) =>
      .ret (some
        { TotalRate := ⟨up, down⟩
          SoftwareVersion := fields.getD 3 []
          LineStats := lineStats
          TotalRetrains := totalRetrains
          Failures := ⟨power, signal, margin, train⟩
          UnavailableSeconds := unavailable
          ChannelType := channelType
          ModemUptime := modemUptime
          Packets := packets
          LineRates := lineRates }, none)

/-! ## The acquisition protocol (`get.go`) -/

/-- Form data of a POST (`url.Values`): keys with their values. -/
abbrev Form := List (Str × List Str)

/-- A request handed to the HTTP client. -/
inductive Request where
  | postForm (url : Str) (data : Form)
  | get (url : Str)
  deriving DecidableEq

/-- A reply that arrived: `ioutil.ReadAll(resp.Body)` yields `body` and
`readErr`. -/
structure Response where
  body : Str
  readErr : Option Err
  deriving DecidableEq

/-- The HTTP client: given the requests issued so far and the next request, it
yields a response or an error. -/
abbrev Client := List Request → Request → Except Err Response

/-- A logged in HTTP client and the address of the router. -/
structure Context where
  client : Client
  address : Str

/-- Absolute URL of a path of the modem: `fmt.Sprintf("http://%s%s", c.address, rel)`. -/
def Context.url (c : Context) (rel : Str) : Str :=
  "http://".toList ++ c.address ++ rel

/-- The request `requestStatus(line)` issues. -/
def selectRequest (c : Context) (line : Int) : Request :=
  .postForm (c.url "/modemstatus_wanstatus.cgi".toList) [("bondingLineNum".toList, [Itoa line])]

/-- The request `refreshStatus()` issues. -/
def refreshRequest (c : Context) : Request :=
  .get (c.url "/modemstatus_wanstatus_refresh.html".toList)

/-- Calls the refresh status page and returns its body. -/
def Context.refreshStatus (c : Context) (h : List Request) : List Request × (Str × Option Err) :=
  match c.client h (refreshRequest c) with
  | .error e => (h ++ [refreshRequest c], ([], some e))
  | .ok resp =>
    match resp.readErr with
    | some e => (h ++ [refreshRequest c], ([], some e))
    | none => (h ++ [refreshRequest c], (resp.body, none))

/-- Calls the top level WAN status page, which selects the line; the content of
the reply is not looked at. -/
def Context.requestStatus (c : Context) (h : List Request) (line : Int) :
    List Request × Option Err :=
  match c.client h (selectRequest c line) with
  | .error e => (h ++ [selectRequest c line], some e)
  | .ok _ => (h ++ [selectRequest c line], none)

/-- One round trip: select the line, fetch the blob, decode it. -/
def Context.statusForLine (L : Float64Lib) (c : Context) (h : List Request) (line : Int) :
    List Request × Go (Option (Status L.F) × Option Err) :=
  match c.requestStatus h line with
  | (h1, some e) => (h1, .ret (none, some e))
  | (h1, none) =>
    match c.refreshStatus h1 with
    | (h2, (_, some e)) => (h2, .ret (none, some e))
    | (h2, (data, none)) =>
      match ParseStatus L data with
      | .panic => (h2, .panic)
      | .ret (_, some e) => (h2, .ret (none, some e))
      | .ret (status, none) => (h2, .ret (status, none))

/-- The loop `for i := 1; i < len(status.LineRates); i++` of `GetStatus`, with
`k` the number of iterations still to run; the body calls `statusForLine(1)`
whatever `i` is. -/
def getStatusLoop (L : Float64Lib) (c : Context) :
    Nat → List Request → List (LineStats L.F) →
      List Request × Go (List (LineStats L.F) × Option Err)
  | 0, h, ls => (h, .ret (ls, none))
  | k + 1, h, ls =>
    match c.statusForLine L h 1 with
    | (h1, .panic) => (h1, .panic)
    | (h1, .ret (_, some e)) => (h1, .ret ([], some e))
    | (h1, .ret (none, none)) => (h1, .panic)
    | (h1, .ret (some lineStatus, none)) => getStatusLoop L c k h1 (ls ++ [lineStatus.LineStats])

/-- Gather line and overall stats and return them: the result is the triple
`(*Status, []LineStats, error)`. -/
def Context.GetStatus (L : Float64Lib) (c : Context) (h : List Request) :
    List Request × Go (Option (Status L.F) × List (LineStats L.F) × Option Err) :=
  match c.statusForLine L h 0 with
  | (h1, .panic) => (h1, .panic)
  | (h1, .ret (_, some e)) => (h1, .ret (none, [], some e))
  | (h1, .ret (none, none)) => (h1, .panic)
  | (h1, .ret (some status, none)) =>
    match getStatusLoop L c (status.LineRates.length - 1) h1 [status.LineStats] with
    | (h2, .panic) => (h2, .panic)
    | (h2, .ret (_, some e)) => (h2, .ret (none, [], some e))
    | (h2, .ret (ls, none)) => (h2, .ret (some status, ls, none))



/-- Go `strings.Contains(s, substr)`. -/
def Contains : Str → Str → Bool
  | [], substr => substr.isPrefixOf []
  | c :: cs, substr => substr.isPrefixOf (c :: cs) || Contains cs substr

/-- The request `Login(username, password)` issues. -/
def loginRequest (c : Context) (username password : Str) : Request :=
  .postForm (c.url "/login.cgi".toList)
    [("inputUserName".toList, [username]), ("inputPassword".toList, [password]),
      ("nothankyou".toList, ["1".toList])]

/-- Log into the UI: the reply is searched for the text of the error message. -/
def Context.Login (c : Context) (h : List Request) (username password : Str) :
    List Request × Option Err :=
  match c.client h (loginRequest c username password) with
  | .error e => (h ++ [loginRequest c username password], some e)
  | .ok resp =>
    match resp.readErr with
    | some e => (h ++ [loginRequest c username password], some e)
    | none =>
      if Contains resp.body "msg=err".toList then
        (h ++ [loginRequest c username password],
          some (.new "User name or password incorrect"))
      else (h ++ [loginRequest c username password], none)

/-! ## Vocabulary for the round trips of `GetStatus` -/

/-- The line that round trip `k` of `GetStatus` selects: the first call is
`statusForLine(0)`, every call in the loop is `statusForLine(1)`. -/
def lineOf (k : Nat) : Int := if k = 0 then 0 else 1

/-- The requests of the first `k` round trips of `GetStatus`, in the order
issued: each round trip is a selection followed by a refresh. -/
def roundTripLog (c : Context) : Nat → List Request
  | 0 => []
  | k + 1 => roundTripLog c k ++ [selectRequest c (lineOf k), refreshRequest c]

/-- The refresh request issued after the requests `h` fails with `e`: the
client returns the error, or reading the body does. -/
def RefreshFails (c : Context) (h : List Request) (e : Err) : Prop :=
  c.client h (refreshRequest c) = .error e ∨
    ∃ r, c.client h (refreshRequest c) = .ok r ∧ r.readErr = some e

/-- A round trip for `line`, started after the requests `h`, in which the
selection, the refresh and the decoding all succeed, the blob decoding to `st`. -/
def RoundTripOk (L : Float64Lib) (c : Context) (h : List Request) (line : Int)
    (st : Status L.F) : Prop :=
  (∃ r, c.client h (selectRequest c line) = .ok r) ∧
    ∃ r, c.client (h ++ [selectRequest c line]) (refreshRequest c) = .ok r ∧
      r.readErr = none ∧ ParseStatus L r.body = .ret (some st, none)

/-- A round trip for `line`, started after the requests `h`, in which the
selection request, the refresh request or the decoding fails with `e`. -/
def RoundTripFails (L : Float64Lib) (c : Context) (h : List Request) (line : Int)
    (e : Err) : Prop :=
  c.client h (selectRequest c line) = .error e ∨
    ((∃ r, c.client h (selectRequest c line) = .ok r) ∧
      (RefreshFails c (h ++ [selectRequest c line]) e ∨
        ∃ r x, c.client (h ++ [selectRequest c line]) (refreshRequest c) = .ok r ∧
          r.readErr = none ∧ ParseStatus L r.body = .ret (x, some e)))

/-- The shape of a run of round trips started after the requests `h`: `new`
are the requests issued, and the last argument is the error of the selection or
refresh request that ended the run, if one did. -/
inductive Rounds (c : Context) : List Request → List Request → Option Err → Prop where
  | done (h : List Request) : Rounds c h [] none
  | selectFailed (h : List Request) (line : Int) (e : Err)
      (hs : c.client h (selectRequest c line) = .error e) :
      Rounds c h [selectRequest c line] (some e)
  | refreshFailed (h : List Request) (line : Int) (r : Response) (e : Err)
      (hs : c.client h (selectRequest c line) = .ok r)
      (hr : RefreshFails c (h ++ [selectRequest c line]) e) :
      Rounds c h [selectRequest c line, refreshRequest c] (some e)
  | round (h : List Request) (line : Int) (r r2 : Response) (rest : List Request)
      (t : Option Err)
      (hs : c.client h (selectRequest c line) = .ok r)
      (hr : c.client (h ++ [selectRequest c line]) (refreshRequest c) = .ok r2)
      (hre : r2.readErr = none)
      (hrest : Rounds c (h ++ [selectRequest c line, refreshRequest c]) rest t) :
      Rounds c h (selectRequest c line :: refreshRequest c :: rest) t

/-! ## Vocabulary for the sub-decoder claims -/

/-- The number a string of decimal digits denotes, read left to right. -/
def decimalValue (s : Str) : Nat :=
  s.foldl (fun n c => n * 10 + (c.toNat - 48)) 0

/-- The string `s` is an unsigned 64-bit decimal with value `v`: it is not
empty, every character is one of the digits `0` to `9` (so no sign and no
white space), and the number it denotes is `v` and is below `2^64`. -/
def IsUint64Decimal (s : Str) (v : Nat) : Prop :=
  s ≠ [] ∧ (∀ c ∈ s, 48 ≤ c.toNat ∧ c.toNat ≤ 57) ∧ decimalValue s = v ∧ v < 2 ^ 64

/-- A property of `strconv.ParseFloat` that the attenuation claims rely on: a
text it accepts contains neither `)` nor `/`. -/
def Float64Lib.RejectsDelimiters (L : Float64Lib) : Prop :=
  ∀ t v, L.ParseFloat t = (v, none) → ')' ∉ t ∧ '/' ∉ t

/-! ## Concrete inputs, used to run the definitions -/

/-- A stand-in for `float64`, used to run the decoder on concrete blobs: it
reads the plain decimal literals `d` and `d.d` (which `strconv.ParseFloat`
accepts) and keeps the value exactly, as the digits without the point together
with the number of digits after the point. -/
def decimalLib : Float64Lib where
  F := Nat × Nat
  zero := (0, 0)
  ParseFloat := fun s =>
    match Split s ".".toList with
    | [a] =>
      match ParseUint a with
      | (n, none) => ((n, 0), none)
      | (_, some _) => ((0, 0), some (.num "ParseFloat" s .invalid))
    | [a, b] =>
      match ParseUint a, ParseUint b with
      | (n, none), (m, none) => ((n * 10 ^ b.length + m, b.length), none)
      | _, _ => ((0, 0), some (.num "ParseFloat" s .invalid))
    | _ => ((0, 0), some (.num "ParseFloat" s .invalid))

instance : DecidableEq decimalLib.F := inferInstanceAs (DecidableEq (Nat × Nat))

/-- A status blob of 28 fields: two line-rate fields (25 and 26) and a last
field that is empty. -/
def blob28 : Str :=
  "0+1000+2000+FW-1.0+Up|PTM|10000|2000|9/7|(DS1)26.6 /(US1)13.1|2|1000|0+3+0+0+0+0+12+0+86400+20|0|30|0+x+x+x+x+x+x+x+x+x+x+x+Up|100|200+Up|300|400+".toList

/-- What `blob28` decodes to. -/
def status28 : Status decimalLib.F :=
  { TotalRate := ⟨1000, 2000⟩
    SoftwareVersion := "FW-1.0".toList
    LineStats := ⟨.Up, ⟨2000, 10000⟩, ⟨7, 9⟩, ⟨(131, 1), (266, 1)⟩, 2, 1000000000000⟩
    TotalRetrains := 3
    Failures := ⟨0, 0, 0, 0⟩
    UnavailableSeconds := 12000000000
    ChannelType := .Interleaved
    ModemUptime := 86400000000000
    Packets := ⟨⟨20, 0⟩, ⟨30, 0⟩⟩
    LineRates := [⟨⟨100, 200⟩, .Up⟩, ⟨⟨300, 400⟩, .Up⟩] }

/-- A status blob of 27 fields whose packet-counter field (13) is `20`: a
single number, no `|`. -/
def blobShortPackets : Str :=
  "0+1000+2000+FW-1.0+Up|PTM|10000|2000|9/7|(DS1)26.6 /(US1)13.1|2|1000|0+3+0+0+0+0+12+0+86400+20+x+x+x+x+x+x+x+x+x+x+x+Up|100|200+".toList

/-- A status blob of 29 fields: three line-rate fields (25, 26 and 27). -/
def blob29 : Str :=
  "0+1000+2000+FW-1.0+Up|PTM|10000|2000|9/7|(DS1)26.6 /(US1)13.1|2|1000|0+3+0+0+0+0+12+0+86400+20|0|30|0+x+x+x+x+x+x+x+x+x+x+x+Up|100|200+Up|300|400+Down|0|0+".toList

/-- What `blob29` decodes to. -/
def status29 : Status decimalLib.F :=
  { status28 with LineRates := [⟨⟨100, 200⟩, .Up⟩, ⟨⟨300, 400⟩, .Up⟩, ⟨⟨0, 0⟩, .Down⟩] }

/-- A modem that accepts every selection and answers every refresh with the
same blob. -/
def modem (blob : Str) : Context where
  client := fun _ req =>
    match req with
    | .postForm _ _ => .ok ⟨[], none⟩
    | .get _ => .ok ⟨blob, none⟩
  address := "192.168.0.1".toList

/-- A modem that accepts every selection, answers the first refresh with the
blob and fails every later refresh. -/
def modemFailingLater (blob : Str) : Context where
  client := fun h req =>
    match req with
    | .postForm _ _ => .ok ⟨[], none⟩
    | .get _ => if h.length < 2 then .ok ⟨blob, none⟩ else .error (.http 1)
  address := "192.168.0.1".toList

/-- A status blob of 27 fields in which the three counts of seconds carry a
minus sign: the uptime of the line (part 7 of field 4) is `-1000`, field 10 is
`-12` and field 12 is `-86400`. -/
def blobNegativeSeconds : Str :=
  "0+1000+2000+FW-1.0+Up|PTM|10000|2000|9/7|(DS1)26.6 /(US1)13.1|2|-1000|0+3+0+0+0+0+-12+0+-86400+20|0|30|0+x+x+x+x+x+x+x+x+x+x+x+Up|100|200+".toList

/-- A status blob of 27 fields whose counts of seconds in fields 10 and 12 are
`9223372037`, one more than fits in an `int64` count of nanoseconds. -/
def blobHugeSeconds : Str :=
  "0+1000+2000+FW-1.0+Up|PTM|10000|2000|9/7|(DS1)26.6 /(US1)13.1|2|1000|0+3+0+0+0+0+9223372037+0+9223372037+20|0|30|0+x+x+x+x+x+x+x+x+x+x+x+Up|100|200+".toList

/-- A modem that accepts every selection, answers the first refresh with
`first` and every later refresh with `later`. -/
def modemThen (first later : Str) : Context where
  client := fun h req =>
    match req with
    | .postForm _ _ => .ok ⟨[], none⟩
    | .get _ => if h.length < 2 then .ok ⟨first, none⟩ else .ok ⟨later, none⟩
  address := "192.168.0.1".toList

/-! ## Facts about the decoder -/

theorem ParseStatus_blob28 : ParseStatus decimalLib blob28 = .ret (some status28, none) := by
  decide


theorem lineRatesLoop_ok (l : List Str) (acc : List LineRate)
    (h : ∀ f ∈ l, (stringToLineRate f).2 = none) :
    lineRatesLoop l acc = (acc ++ l.map (fun f => (stringToLineRate f).1), none) := by
  induction l generalizing acc with
  | nil => simp [lineRatesLoop]
  | cons f fs ih =>
    have hf : (stringToLineRate f).2 = none := h f (by simp)
    rcases hd : stringToLineRate f with ⟨r, e⟩
    rw [hd] at hf
    simp only at hf
    subst hf
    simp only [lineRatesLoop, hd]
    rw [ih _ (fun g hg => h g (by simp [hg]))]
    simp [hd]

theorem lineRatesLoop_inv (l : List Str) (acc res : List LineRate)
    (h : lineRatesLoop l acc = (res, none)) :
    (∀ f ∈ l, (stringToLineRate f).2 = none) ∧
      res = acc ++ l.map (fun f => (stringToLineRate f).1) := by
  induction l generalizing acc with
  | nil => simp [lineRatesLoop] at h; simp [h]
  | cons f fs ih =>
    rcases hd : stringToLineRate f with ⟨r, e⟩
    cases e with
    | some e => simp [lineRatesLoop, hd] at h
    | none =>
      simp only [lineRatesLoop, hd] at h
      obtain ⟨h1, h2⟩ := ih _ h
      refine ⟨?_, ?_⟩
      · intro g hg
        rcases List.mem_cons.1 hg with rfl | hg
        · simp [hd]
        · exact h1 g hg
      · simp [h2, hd]

/-- What a successful `ParseStatus` says about the fields. -/
theorem ParseStatus_ok_inv (L : Float64Lib) (input : Str) (st : Status L.F)
    (h : ParseStatus L input = .ret (some st, none)) :
    27 ≤ (statusFields input).length ∧
    ParseUint ((statusFields input).getD 1 []) = (st.TotalRate.Up, none) ∧
    ParseUint ((statusFields input).getD 2 []) = (st.TotalRate.Down, none) ∧
    st.SoftwareVersion = (statusFields input).getD 3 [] ∧
    stringToLineStats L ((statusFields input).getD 4 []) = (st.LineStats, none) ∧
    ParseUint ((statusFields input).getD 5 []) = (st.TotalRetrains, none) ∧
    ParseUint ((statusFields input).getD 6 []) = (st.Failures.Power, none) ∧
    ParseUint ((statusFields input).getD 7 []) = (st.Failures.Signal, none) ∧
    ParseUint ((statusFields input).getD 8 []) = (st.Failures.Margin, none) ∧
    ParseUint ((statusFields input).getD 9 []) = (st.Failures.Train, none) ∧
    stringSecondsToDuration ((statusFields input).getD 10 []) = (st.UnavailableSeconds, none) ∧
    stringToChannelType ((statusFields input).getD 11 []) = (st.ChannelType, none) ∧
    stringSecondsToDuration ((statusFields input).getD 12 []) = (st.ModemUptime, none) ∧
    stringToPackets ((statusFields input).getD 13 []) = .ret (st.Packets, none) ∧
    lineRatesLoop (((statusFields input).take ((statusFields input).length - 1)).drop 25) []
      = (st.LineRates, none) := by
  unfold ParseStatus at h
  simp only at h
  repeat' split at h
  all_goals try (simp at h; done)
  simp only [Go.ret.injEq, Prod.mk.injEq, Option.some.injEq, and_true] at h
  subst h
  simp_all



/-- Inside the range `-9223372036 .. 9223372036` the `int64` product of a count
of seconds with `10^9` does not wrap. -/
theorem wrapInt64_seconds_exact (n : Int) (h1 : -9223372036 ≤ n) (h2 : n ≤ 9223372036) :
    wrapInt64 (n * 1000000000) = n * 1000000000 := by
  unfold wrapInt64
  omega

/-- A duration that `stringSecondsToDuration` returns is the signed decimal of
the field, a count of seconds, turned into nanoseconds by an `int64` product. -/
theorem stringSecondsToDuration_ok_inv (s : Str) (d : Int)
    (h : stringSecondsToDuration s = (d, none)) :
    ∃ n, ParseInt s = (n, none) ∧ d = wrapInt64 (n * 1000000000) := by
  unfold stringSecondsToDuration at h
  split at h
  · rename_i n hn
    exact ⟨n, hn, by simpa using (Prod.mk.inj h).1.symm⟩
  · simp at h

/-- A duration that `stringSecondsToDuration` returns is exactly the count of
seconds of the field when that count is within `-9223372036 .. 9223372036`. -/
theorem stringSecondsToDuration_exact (s : Str) (d : Int)
    (h : stringSecondsToDuration s = (d, none)) :
    ∃ n, ParseInt s = (n, none) ∧ d = wrapInt64 (n * 1000000000) ∧
      (-9223372036 ≤ n → n ≤ 9223372036 → d = n * 1000000000) := by
  obtain ⟨n, h1, h2⟩ := stringSecondsToDuration_ok_inv s d h
  exact ⟨n, h1, h2, fun a b => by rw [h2, wrapInt64_seconds_exact n a b]⟩

theorem eq_of_snd_none {α β : Type} (p : α × Option β) (h : p.2 = none) : p = (p.1, none) := by
  rcases p with ⟨a, b⟩
  simp only at h
  rw [h]

theorem mem_rate_fields (fields : List Str) (g : Str)
    (hg : g ∈ (fields.take (fields.length - 1)).drop 25) :
    ∃ i, 25 ≤ i ∧ i + 1 < fields.length ∧ fields.getD i [] = g := by
  obtain ⟨j, hj, rfl⟩ := List.mem_iff_getElem.1 hg
  simp only [List.length_drop, List.length_take] at hj
  refine ⟨25 + j, by omega, by omega, ?_⟩
  rw [List.getD_eq_getElem _ _ (by omega)]
  simp [List.getElem_drop, List.getElem_take]

theorem rate_fields_congr (a b : List Str) (hl : a.length = b.length)
    (h : ∀ i, 25 ≤ i → i + 1 < b.length → a.getD i [] = b.getD i []) :
    (a.take (a.length - 1)).drop 25 = (b.take (b.length - 1)).drop 25 := by
  apply List.ext_getElem
  · simp [hl]
  · intro j h1 h2
    simp only [List.length_drop, List.length_take] at h1 h2
    have := h (25 + j) (by omega) (by omega)
    rw [List.getD_eq_getElem _ _ (by omega), List.getD_eq_getElem _ _ (by omega)] at this
    simpa [List.getElem_drop, List.getElem_take] using this

/-- The decoder `ParseStatus` reads the number of fields, fields 1 to 13 and
the fields from 25 to the second-to-last, and nothing else. -/
theorem ParseStatus_congr (L : Float64Lib) (a b : Str)
    (hl : (statusFields a).length = (statusFields b).length)
    (h : ∀ i, (1 ≤ i ∧ i ≤ 13) ∨ (25 ≤ i ∧ i + 1 < (statusFields b).length) →
      (statusFields a).getD i [] = (statusFields b).getD i []) :
    ParseStatus L a = ParseStatus L b := by
  have hs := rate_fields_congr _ _ hl (fun i h1 h2 => h i (Or.inr ⟨h1, h2⟩))
  unfold ParseStatus
  simp only [hs]
  simp only [hl, h 1 (by omega), h 2 (by omega), h 3 (by omega), h 4 (by omega),
    h 5 (by omega), h 6 (by omega), h 7 (by omega), h 8 (by omega), h 9 (by omega),
    h 10 (by omega), h 11 (by omega), h 12 (by omega), h 13 (by omega)]

/-- C2: a blob that splits on `+` into fewer than 27 fields is rejected:
`ParseStatus` returns an error and a nil status. -/
theorem ParseStatus_too_few_fields (L : Float64Lib) (input : Str)
    (h : (statusFields input).length < 27) :
    ParseStatus L input =
      .ret (none, some (.errorf "Unexpected number of fields: %d"
        (.int (statusFields input).length))) := by
  unfold ParseStatus
  simp only [if_pos h]

/-- C1 (amended): for a blob of at least 27 fields in which every consumed field
decodes, `ParseStatus` returns a status (and no error) whose SoftwareVersion is
field 3, whose LineStats, TotalRetrains, Failures, ChannelType and Packets are
what the sub-decoders give for fields 4 to 9, 11 and 13, and whose
UnavailableSeconds and ModemUptime are the counts of seconds of fields 10 and
12, exactly, when the count is within `-9223372036 .. 9223372036` (the duration
is the `int64` product of the count with `10^9` nanoseconds); and a blob with
the same number of fields that agrees on fields 1 to 13 and on fields 25 to the
second-to-last (so may differ in fields 0, 14 to 24 and the last one) gives the
same result. -/
theorem ParseStatus_field_positions (L : Float64Lib) (input : Str)
    (hlen : 27 ≤ (statusFields input).length)
    (h1 : (ParseUint ((statusFields input).getD 1 [])).2 = none)
    (h2 : (ParseUint ((statusFields input).getD 2 [])).2 = none)
    (h4 : (stringToLineStats L ((statusFields input).getD 4 [])).2 = none)
    (h5 : (ParseUint ((statusFields input).getD 5 [])).2 = none)
    (h6 : (ParseUint ((statusFields input).getD 6 [])).2 = none)
    (h7 : (ParseUint ((statusFields input).getD 7 [])).2 = none)
    (h8 : (ParseUint ((statusFields input).getD 8 [])).2 = none)
    (h9 : (ParseUint ((statusFields input).getD 9 [])).2 = none)
    (h10 : (stringSecondsToDuration ((statusFields input).getD 10 [])).2 = none)
    (h11 : (stringToChannelType ((statusFields input).getD 11 [])).2 = none)
    (h12 : (stringSecondsToDuration ((statusFields input).getD 12 [])).2 = none)
    (h13 : ∃ pk, stringToPackets ((statusFields input).getD 13 []) = .ret (pk, none))
    (h25 : ∀ i, 25 ≤ i → i + 1 < (statusFields input).length →
      (stringToLineRate ((statusFields input).getD i [])).2 = none) :
    (∃ st, ParseStatus L input = .ret (some st, none) ∧
      st.SoftwareVersion = (statusFields input).getD 3 [] ∧
      stringToLineStats L ((statusFields input).getD 4 []) = (st.LineStats, none) ∧
      ParseUint ((statusFields input).getD 5 []) = (st.TotalRetrains, none) ∧
      ParseUint ((statusFields input).getD 6 []) = (st.Failures.Power, none) ∧
      ParseUint ((statusFields input).getD 7 []) = (st.Failures.Signal, none) ∧
      ParseUint ((statusFields input).getD 8 []) = (st.Failures.Margin, none) ∧
      ParseUint ((statusFields input).getD 9 []) = (st.Failures.Train, none) ∧
      (∃ n, ParseInt ((statusFields input).getD 10 []) = (n, none) ∧
        st.UnavailableSeconds = wrapInt64 (n * 1000000000) ∧
        (-9223372036 ≤ n → n ≤ 9223372036 → st.UnavailableSeconds = n * 1000000000)) ∧
      stringToChannelType ((statusFields input).getD 11 []) = (st.ChannelType, none) ∧
      (∃ n, ParseInt ((statusFields input).getD 12 []) = (n, none) ∧
        st.ModemUptime = wrapInt64 (n * 1000000000) ∧
        (-9223372036 ≤ n → n ≤ 9223372036 → st.ModemUptime = n * 1000000000)) ∧
      stringToPackets ((statusFields input).getD 13 []) = .ret (st.Packets, none)) ∧
    (∀ other : Str,
      (statusFields other).length = (statusFields input).length →
      (∀ i, (1 ≤ i ∧ i ≤ 13) ∨ (25 ≤ i ∧ i + 1 < (statusFields input).length) →
        (statusFields other).getD i [] = (statusFields input).getD i []) →
      ParseStatus L other = ParseStatus L input) := by
  refine ⟨?_, fun other hl h => ParseStatus_congr L other input hl h⟩
  have hex : ∃ st, ParseStatus L input = .ret (some st, none) := by
    have e1 := eq_of_snd_none _ h1
    have e2 := eq_of_snd_none _ h2
    have e4 := eq_of_snd_none _ h4
    have e5 := eq_of_snd_none _ h5
    have e6 := eq_of_snd_none _ h6
    have e7 := eq_of_snd_none _ h7
    have e8 := eq_of_snd_none _ h8
    have e9 := eq_of_snd_none _ h9
    have e10 := eq_of_snd_none _ h10
    have e11 := eq_of_snd_none _ h11
    have e12 := eq_of_snd_none _ h12
    obtain ⟨pk, e13⟩ := h13
    have e25 := lineRatesLoop_ok
      (((statusFields input).take ((statusFields input).length - 1)).drop 25) []
      (fun g hg => by
        obtain ⟨i, hi1, hi2, rfl⟩ := mem_rate_fields _ g hg
        exact h25 i hi1 hi2)
    obtain ⟨v1, e1⟩ : ∃ v, ParseUint ((statusFields input).getD 1 []) = (v, none) := ⟨_, e1⟩
    obtain ⟨v2, e2⟩ : ∃ v, ParseUint ((statusFields input).getD 2 []) = (v, none) := ⟨_, e2⟩
    obtain ⟨v4, e4⟩ : ∃ v, stringToLineStats L ((statusFields input).getD 4 []) = (v, none) :=
      ⟨_, e4⟩
    obtain ⟨v5, e5⟩ : ∃ v, ParseUint ((statusFields input).getD 5 []) = (v, none) := ⟨_, e5⟩
    obtain ⟨v6, e6⟩ : ∃ v, ParseUint ((statusFields input).getD 6 []) = (v, none) := ⟨_, e6⟩
    obtain ⟨v7, e7⟩ : ∃ v, ParseUint ((statusFields input).getD 7 []) = (v, none) := ⟨_, e7⟩
    obtain ⟨v8, e8⟩ : ∃ v, ParseUint ((statusFields input).getD 8 []) = (v, none) := ⟨_, e8⟩
    obtain ⟨v9, e9⟩ : ∃ v, ParseUint ((statusFields input).getD 9 []) = (v, none) := ⟨_, e9⟩
    obtain ⟨v10, e10⟩ :
      ∃ v, stringSecondsToDuration ((statusFields input).getD 10 []) = (v, none) := ⟨_, e10⟩
    obtain ⟨v11, e11⟩ :
      ∃ v, stringToChannelType ((statusFields input).getD 11 []) = (v, none) := ⟨_, e11⟩
    obtain ⟨v12, e12⟩ :
      ∃ v, stringSecondsToDuration ((statusFields input).getD 12 []) = (v, none) := ⟨_, e12⟩
    unfold ParseStatus
    simp only [if_neg (Nat.not_lt.2 hlen), e1, e2, e4, e5, e6, e7, e8, e9, e10, e11, e12, e13, e25]
    exact ⟨_, rfl⟩
  obtain ⟨st, hst⟩ := hex
  have inv := ParseStatus_ok_inv L input st hst
  exact ⟨st, hst, inv.2.2.2.1, inv.2.2.2.2.1, inv.2.2.2.2.2.1, inv.2.2.2.2.2.2.1,
    inv.2.2.2.2.2.2.2.1, inv.2.2.2.2.2.2.2.2.1, inv.2.2.2.2.2.2.2.2.2.1,
    stringSecondsToDuration_exact _ _ inv.2.2.2.2.2.2.2.2.2.2.1, inv.2.2.2.2.2.2.2.2.2.2.2.1,
    stringSecondsToDuration_exact _ _ inv.2.2.2.2.2.2.2.2.2.2.2.2.1,
    inv.2.2.2.2.2.2.2.2.2.2.2.2.2.1⟩

/-- Every outcome of `ParseStatus`: a panic, a status and no error, or an error
and no status. -/
theorem ParseStatus_outcome (L : Float64Lib) (input : Str) :
    ParseStatus L input = .panic ∨ (∃ st, ParseStatus L input = .ret (some st, none)) ∨
      (∃ e, ParseStatus L input = .ret (none, some e)) := by
  unfold ParseStatus
  simp only
  repeat' split
  all_goals simp

theorem lineRates_of_ParseStatus (L : Float64Lib) (input : Str) (st : Status L.F)
    (h : ParseStatus L input = .ret (some st, none)) :
    27 ≤ (statusFields input).length ∧
    st.LineRates =
      (((statusFields input).take ((statusFields input).length - 1)).drop 25).map
        (fun f => (stringToLineRate f).1) ∧
    ∀ f ∈ ((statusFields input).take ((statusFields input).length - 1)).drop 25,
      (stringToLineRate f).2 = none := by
  have inv := ParseStatus_ok_inv L input st h
  obtain ⟨h1, h2⟩ := lineRatesLoop_inv _ _ _ inv.2.2.2.2.2.2.2.2.2.2.2.2.2.2
  exact ⟨inv.1, by simpa using h2, h1⟩

theorem lineRates_length_of_ParseStatus (L : Float64Lib) (input : Str) (st : Status L.F)
    (h : ParseStatus L input = .ret (some st, none)) :
    st.LineRates.length = (statusFields input).length - 26 ∧ 1 ≤ st.LineRates.length := by
  obtain ⟨h1, h2, _⟩ := lineRates_of_ParseStatus L input st h
  rw [h2]
  simp only [List.length_map, List.length_drop, List.length_take]
  omega

/-- C1 (amended) at a concrete blob of 28 fields, whose field 10 is `12`. -/
theorem ParseStatus_field_positions_witness :
    27 ≤ (statusFields blob28).length ∧
    ∃ st, ParseStatus decimalLib blob28 = .ret (some st, none) ∧
      st.SoftwareVersion = (statusFields blob28).getD 3 [] ∧
      ParseUint ((statusFields blob28).getD 5 []) = (st.TotalRetrains, none) ∧
      st.UnavailableSeconds = 12 * 1000000000 := by
  have hl : (statusFields blob28).length = 28 := by decide
  refine ⟨by decide, ?_⟩
  obtain ⟨st, h, hv, _, hr, _, _, _, _, ⟨n, hn, _, hex⟩, _⟩ :=
    (ParseStatus_field_positions decimalLib blob28 (by decide) (by decide) (by decide)
      (by decide) (by decide) (by decide) (by decide) (by decide) (by decide) (by decide)
      (by decide) (by decide) ⟨⟨⟨20, 0⟩, ⟨30, 0⟩⟩, by decide⟩
      (fun i h1 h2 => by
        rw [hl] at h2
        have hi : i = 25 ∨ i = 26 := by omega
        rcases hi with rfl | rfl <;> decide)).1
  have hn12 : ParseInt ((statusFields blob28).getD 10 []) = (12, none) := by decide
  rw [hn12] at hn
  have hn' : n = 12 := (Prod.mk.inj hn).1.symm
  subst hn'
  exact ⟨st, h, hv, hr, hex (by omega) (by omega)⟩

/-- C1 (counterexample): in a blob of 27 fields in which every consumed field
decodes and whose fields 10 and 12 are `9223372037`, a count of seconds that
`ParseInt` accepts, UnavailableSeconds and ModemUptime are not 9223372037
seconds: the `int64` product wraps to -9223372036709551616 nanoseconds. -/
theorem ParseStatus_seconds_beyond_int64 :
    ∃ st, ParseStatus decimalLib blobHugeSeconds = .ret (some st, none) ∧
      (statusFields blobHugeSeconds).length = 27 ∧
      (statusFields blobHugeSeconds).getD 10 [] = "9223372037".toList ∧
      (statusFields blobHugeSeconds).getD 12 [] = "9223372037".toList ∧
      ParseInt "9223372037".toList = (9223372037, none) ∧
      st.UnavailableSeconds = -9223372036709551616 ∧
      st.UnavailableSeconds ≠ 9223372037 * 1000000000 ∧
      st.ModemUptime = -9223372036709551616 ∧
      st.ModemUptime ≠ 9223372037 * 1000000000 :=
  ⟨{ status28 with
      UnavailableSeconds := -9223372036709551616
      ModemUptime := -9223372036709551616
      LineRates := [⟨⟨100, 200⟩, .Up⟩] }, by decide, by decide, by decide, by decide, by decide,
    by decide, by decide, by decide, by decide⟩

/-- C2 at the blob `1+2`, which has two fields. -/
theorem ParseStatus_too_few_fields_witness :
    (statusFields "1+2".toList).length < 27 ∧
    ParseStatus decimalLib "1+2".toList =
      .ret (none, some (.errorf "Unexpected number of fields: %d"
        (.int (statusFields "1+2".toList).length))) :=
  ⟨by decide, ParseStatus_too_few_fields decimalLib "1+2".toList (by decide)⟩

/-- C3: when `ParseStatus` decodes a blob of `k` fields, `k` is at least 27,
LineRates has exactly `k - 26` entries (at least one), and entry `j` is the
line-rate decoding of field `25 + j`; the fields visited stop before the last
one (`25 + j < k - 1`). -/
theorem ParseStatus_lineRates (L : Float64Lib) (input : Str) (st : Status L.F)
    (h : ParseStatus L input = .ret (some st, none)) :
    27 ≤ (statusFields input).length ∧
    st.LineRates.length = (statusFields input).length - 26 ∧
    1 ≤ st.LineRates.length ∧
    ∀ j, j < (statusFields input).length - 26 →
      25 + j < (statusFields input).length - 1 ∧
      ∃ r, st.LineRates[j]? = some r ∧
        stringToLineRate ((statusFields input).getD (25 + j) []) = (r, none) := by
  obtain ⟨h1, h2, h3⟩ := lineRates_of_ParseStatus L input st h
  obtain ⟨h4, h5⟩ := lineRates_length_of_ParseStatus L input st h
  refine ⟨h1, h4, h5, fun j hj => ⟨by omega, ?_⟩⟩
  have hjl : j < (((statusFields input).take ((statusFields input).length - 1)).drop 25).length := by
    simp only [List.length_drop, List.length_take]
    omega
  have hget : (((statusFields input).take ((statusFields input).length - 1)).drop 25)[j] =
      (statusFields input).getD (25 + j) [] := by
    rw [List.getD_eq_getElem _ _ (by omega)]
    simp [List.getElem_drop, List.getElem_take]
  refine ⟨(stringToLineRate ((statusFields input).getD (25 + j) [])).1, ?_, ?_⟩
  · rw [h2, List.getElem?_map, List.getElem?_eq_getElem hjl, hget]
    rfl
  · apply eq_of_snd_none
    rw [← hget]
    exact h3 _ (List.getElem_mem _)

/-- C3 at a concrete blob of 28 fields: two line rates. -/
theorem ParseStatus_lineRates_witness :
    ParseStatus decimalLib blob28 = .ret (some status28, none) ∧
    status28.LineRates.length = (statusFields blob28).length - 26 :=
  ⟨ParseStatus_blob28, (ParseStatus_lineRates decimalLib blob28 status28 ParseStatus_blob28).2.1⟩

/-- C4 (failing input): on a blob of 27 fields whose fields 1 to 12 decode and
whose packet-counter field is `20`, `ParseStatus` returns neither a status nor
an error: the index `fields[1]` in `stringToPackets` is out of range and the
call panics. -/
theorem ParseStatus_panics_on_short_packets :
    (statusFields blobShortPackets).length = 27 ∧
    (statusFields blobShortPackets).getD 13 [] = "20".toList ∧
    stringToPackets "20".toList = .panic ∧
    ParseStatus decimalLib blobShortPackets = .panic := by
  decide

/-- C5 (counterexample): in a blob whose first total-rate component (field 1)
is 1000 and whose second (field 2) is 2000, the decoded TotalRate has Up = 1000
and Down = 2000, not Down = 1000 and Up = 2000. -/
theorem ParseStatus_total_rate_not_down_then_up :
    ParseStatus decimalLib blob28 = .ret (some status28, none) ∧
    (statusFields blob28).getD 1 [] = "1000".toList ∧
    (statusFields blob28).getD 2 [] = "2000".toList ∧
    status28.TotalRate.Up = 1000 ∧ status28.TotalRate.Down = 2000 ∧
    ¬ (status28.TotalRate.Down = 1000 ∧ status28.TotalRate.Up = 2000) := by
  decide

/-- C5 (amended): the total rate is read from two fields, up then down: when
`ParseStatus` decodes a blob, TotalRate.Up is the unsigned decimal of field 1
and TotalRate.Down the unsigned decimal of field 2. -/
theorem ParseStatus_total_rate_up_then_down (L : Float64Lib) (input : Str) (st : Status L.F)
    (h : ParseStatus L input = .ret (some st, none)) :
    ParseUint ((statusFields input).getD 1 []) = (st.TotalRate.Up, none) ∧
    ParseUint ((statusFields input).getD 2 []) = (st.TotalRate.Down, none) :=
  ⟨(ParseStatus_ok_inv L input st h).2.1, (ParseStatus_ok_inv L input st h).2.2.1⟩

/-- C5 (amended) at a concrete blob. -/
theorem ParseStatus_total_rate_up_then_down_witness :
    ParseStatus decimalLib blob28 = .ret (some status28, none) ∧
    ParseUint ((statusFields blob28).getD 1 []) = (status28.TotalRate.Up, none) ∧
    ParseUint ((statusFields blob28).getD 2 []) = (status28.TotalRate.Down, none) :=
  ⟨ParseStatus_blob28, ParseStatus_total_rate_up_then_down decimalLib blob28 status28
    ParseStatus_blob28⟩

/-! ## Facts about the acquisition protocol -/

theorem ParseStatus_blob29 : ParseStatus decimalLib blob29 = .ret (some status29, none) := by
  decide

theorem statusForLine_ok (L : Float64Lib) (c : Context) (h : List Request) (line : Int)
    (st : Status L.F) (hrt : RoundTripOk L c h line st) :
    c.statusForLine L h line =
      (h ++ [selectRequest c line, refreshRequest c], .ret (some st, none)) := by
  obtain ⟨⟨r, hr⟩, r2, hr2, hre, hp⟩ := hrt
  simp [Context.statusForLine, Context.requestStatus, Context.refreshStatus, hr, hr2, hre, hp]

theorem statusForLine_fails (L : Float64Lib) (c : Context) (h : List Request) (line : Int)
    (e : Err) (hrt : RoundTripFails L c h line e) :
    (c.statusForLine L h line).2 = .ret (none, some e) := by
  rcases hrt with hs | ⟨⟨r, hr⟩, hf | ⟨r2, x, hr2, hre, hp⟩⟩
  · simp [Context.statusForLine, Context.requestStatus, hs]
  · rcases hf with hf | ⟨r2, hr2, hre⟩
    · simp [Context.statusForLine, Context.requestStatus, Context.refreshStatus, hr, hf]
    · simp [Context.statusForLine, Context.requestStatus, Context.refreshStatus, hr, hr2, hre]
  · simp [Context.statusForLine, Context.requestStatus, Context.refreshStatus, hr, hr2, hre, hp]

theorem lineOf_pos (k : Nat) (hk : 1 ≤ k) : lineOf k = 1 := by
  unfold lineOf
  rw [if_neg (by omega)]

theorem getStatusLoop_ok (L : Float64Lib) (c : Context) (h : List Request)
    (st : Nat → Status L.F) (k : Nat) :
    ∀ (i : Nat) (ls : List (LineStats L.F)), 1 ≤ i →
      (∀ j, i ≤ j → j < i + k → RoundTripOk L c (h ++ roundTripLog c j) (lineOf j) (st j)) →
      getStatusLoop L c k (h ++ roundTripLog c i) ls =
        (h ++ roundTripLog c (i + k),
          .ret (ls ++ (List.range' i k).map (fun j => (st j).LineStats), none)) := by
  induction k with
  | zero => intro i ls _ _; simp [getStatusLoop]
  | succ k ih =>
    intro i ls hi hok
    have h1 := statusForLine_ok L c _ _ _ (hok i (le_refl _) (by omega))
    rw [lineOf_pos i hi] at h1
    have hlog : h ++ roundTripLog c i ++ [selectRequest c 1, refreshRequest c] =
        h ++ roundTripLog c (i + 1) := by
      simp [roundTripLog, lineOf_pos i hi]
    rw [hlog] at h1
    simp only [getStatusLoop, h1]
    rw [ih (i + 1) _ (by omega) (fun j hj1 hj2 => hok j (by omega) (by omega))]
    simp [List.range'_succ, Nat.add_assoc, Nat.add_comm 1 k]

theorem getStatusLoop_fails (L : Float64Lib) (c : Context) (h : List Request)
    (st : Nat → Status L.F) (m : Nat) (e : Err) (k : Nat) :
    ∀ (i : Nat) (ls : List (LineStats L.F)), 1 ≤ i → i ≤ m → m < i + k →
      (∀ j, i ≤ j → j < m → RoundTripOk L c (h ++ roundTripLog c j) (lineOf j) (st j)) →
      RoundTripFails L c (h ++ roundTripLog c m) (lineOf m) e →
      (getStatusLoop L c k (h ++ roundTripLog c i) ls).2 = .ret ([], some e) := by
  induction k with
  | zero => intro i ls _ h1 h2; omega
  | succ k ih =>
    intro i ls hi him hmk hok hfail
    rcases Nat.eq_or_lt_of_le him with rfl | hlt
    · have h1 := statusForLine_fails L c _ _ _ hfail
      rw [lineOf_pos i hi] at h1
      rcases hsl : c.statusForLine L (h ++ roundTripLog c i) 1 with ⟨h', out⟩
      rw [hsl] at h1
      simp only at h1
      subst h1
      simp [getStatusLoop, hsl]
    · have h1 := statusForLine_ok L c _ _ _ (hok i (le_refl _) hlt)
      rw [lineOf_pos i hi] at h1
      have hlog : h ++ roundTripLog c i ++ [selectRequest c 1, refreshRequest c] =
          h ++ roundTripLog c (i + 1) := by
        simp [roundTripLog, lineOf_pos i hi]
      rw [hlog] at h1
      simp only [getStatusLoop, h1]
      exact ih (i + 1) _ (by omega) (by omega) (by omega)
        (fun j hj1 hj2 => hok j (by omega) hj2) hfail

/-- C6: when every round trip of `GetStatus` succeeds, round trip `k` decoding
to `st k`, and `n` is the number of LineRates of `st 0`, then `GetStatus`
returns `st 0` with no error and a list of exactly `n` LineStats: the first is
the LineStats of `st 0` and the one at position `k` is the LineStats of `st k`,
the status decoded from the `k`-th additional response. -/
theorem GetStatus_returns_every_line (L : Float64Lib) (c : Context) (h : List Request)
    (st : Nat → Status L.F)
    (h0 : RoundTripOk L c h 0 (st 0))
    (hk : ∀ k, 1 ≤ k → k < (st 0).LineRates.length →
      RoundTripOk L c (h ++ roundTripLog c k) (lineOf k) (st k)) :
    ∃ ls, c.GetStatus L h =
        (h ++ roundTripLog c (st 0).LineRates.length, .ret (some (st 0), ls, none)) ∧
      ls = (List.range (st 0).LineRates.length).map (fun k => (st k).LineStats) ∧
      ls.length = (st 0).LineRates.length ∧
      ls[0]? = some (st 0).LineStats ∧
      ∀ k, 1 ≤ k → k < (st 0).LineRates.length → ls[k]? = some (st k).LineStats := by
  have hn : 1 ≤ (st 0).LineRates.length := by
    obtain ⟨_, r, _, _, hp⟩ := h0
    exact (lineRates_length_of_ParseStatus L _ _ hp).2
  have h1 := statusForLine_ok L c h 0 (st 0) h0
  have hloop := getStatusLoop_ok L c h st ((st 0).LineRates.length - 1) 1 [(st 0).LineStats]
    (le_refl _) (fun j hj1 hj2 => hk j hj1 (by omega))
  have hlog : h ++ roundTripLog c 1 = h ++ [selectRequest c 0, refreshRequest c] := by
    simp [roundTripLog, lineOf]
  rw [hlog, Nat.add_sub_cancel' hn] at hloop
  have hls : [(st 0).LineStats] ++
      (List.range' 1 ((st 0).LineRates.length - 1)).map (fun j => (st j).LineStats) =
      (List.range (st 0).LineRates.length).map (fun k => (st k).LineStats) := by
    obtain ⟨n, hn'⟩ : ∃ n, (st 0).LineRates.length = n + 1 := ⟨_, (Nat.sub_add_cancel hn).symm⟩
    rw [hn', List.range_eq_range', List.range'_succ]
    simp
  refine ⟨_, ?_, rfl, by simp, ?_, ?_⟩
  · simp only [Context.GetStatus, h1, hloop, hls]
  · rw [List.getElem?_map, List.getElem?_range (by omega)]
    rfl
  · intro k _ hk2
    rw [List.getElem?_map, List.getElem?_range hk2]
    rfl

theorem modem_roundTripOk (blob : Str) (st : Status decimalLib.F)
    (hp : ParseStatus decimalLib blob = .ret (some st, none)) (h : List Request) (line : Int) :
    RoundTripOk decimalLib (modem blob) h line st :=
  ⟨⟨⟨[], none⟩, rfl⟩, ⟨blob, none⟩, rfl, rfl, hp⟩

/-- C6 at a modem that answers every refresh with a blob of two line rates. -/
theorem GetStatus_returns_every_line_witness :
    ∃ ls, (modem blob28).GetStatus decimalLib [] =
        ([] ++ roundTripLog (modem blob28) status28.LineRates.length,
          .ret (some status28, ls, none)) ∧
      ls.length = status28.LineRates.length ∧ ls[0]? = some status28.LineStats := by
  obtain ⟨ls, h1, _, h2, h3, _⟩ :=
    GetStatus_returns_every_line decimalLib (modem blob28) [] (fun _ => status28)
      (modem_roundTripOk blob28 status28 ParseStatus_blob28 [] 0)
      (fun k _ _ => modem_roundTripOk blob28 status28 ParseStatus_blob28 _ _)
  exact ⟨ls, h1, h2, h3⟩

/-- C7 (counterexample): against a modem whose blob decodes to a status with
two LineRates, `GetStatus` issues two selection/refresh pairs (line 0, then
line 1), not three, and returns two LineStats, not three. -/
theorem GetStatus_line_rates_two_not_three :
    status28.LineRates.length = 2 ∧
    (modem blob28).GetStatus decimalLib [] =
      ([selectRequest (modem blob28) 0, refreshRequest (modem blob28),
        selectRequest (modem blob28) 1, refreshRequest (modem blob28)],
        .ret (some status28, [status28.LineStats, status28.LineStats], none)) ∧
    ((modem blob28).GetStatus decimalLib []).1.length ≠ 2 * 3 := by
  decide

/-- C7 (amended): when the first response decodes to a status with two
LineRates and every request and decode succeeds, `GetStatus` issues exactly two
selection/refresh pairs, selecting line 0 and then line 1, and returns the first
status with a two-element LineStats list whose first element is the LineStats of
the first response (the second is the LineStats of the second response). -/
theorem GetStatus_two_line_rates (L : Float64Lib) (c : Context) (h : List Request)
    (st0 st1 : Status L.F)
    (h0 : RoundTripOk L c h 0 st0)
    (hn : st0.LineRates.length = 2)
    (h1 : RoundTripOk L c (h ++ [selectRequest c 0, refreshRequest c]) 1 st1) :
    c.GetStatus L h =
      (h ++ [selectRequest c 0, refreshRequest c, selectRequest c 1, refreshRequest c],
        .ret (some st0, [st0.LineStats, st1.LineStats], none)) := by
  have e0 := statusForLine_ok L c h 0 st0 h0
  have e1 := statusForLine_ok L c _ 1 st1 h1
  simp [Context.GetStatus, e0, hn, getStatusLoop, e1]

/-- C7 (amended) at a modem that answers every refresh with a blob of two line
rates. -/
theorem GetStatus_two_line_rates_witness :
    status28.LineRates.length = 2 ∧
    (modem blob28).GetStatus decimalLib [] =
      ([] ++ [selectRequest (modem blob28) 0, refreshRequest (modem blob28),
        selectRequest (modem blob28) 1, refreshRequest (modem blob28)],
        .ret (some status28, [status28.LineStats, status28.LineStats], none)) :=
  ⟨by decide, GetStatus_two_line_rates decimalLib (modem blob28) [] status28 status28
    (modem_roundTripOk blob28 status28 ParseStatus_blob28 [] 0) (by decide)
    (modem_roundTripOk blob28 status28 ParseStatus_blob28 _ 1)⟩

/-- C8 (failing input): against a modem whose blob decodes to a status with
three LineRates, `GetStatus` makes two additional round trips and both select
line 1: the form field `bondingLineNum` of the third selection is `1`, not `2`. -/
theorem GetStatus_selects_line_one_twice :
    status29.LineRates.length = 3 ∧
    ((modem blob29).GetStatus decimalLib []).1 =
      [selectRequest (modem blob29) 0, refreshRequest (modem blob29),
        selectRequest (modem blob29) 1, refreshRequest (modem blob29),
        selectRequest (modem blob29) 1, refreshRequest (modem blob29)] ∧
    ((modem blob29).GetStatus decimalLib []).1[4]? =
      some (.postForm "http://192.168.0.1/modemstatus_wanstatus.cgi".toList
        [("bondingLineNum".toList, ["1".toList])]) ∧
    selectRequest (modem blob29) 1 ≠ selectRequest (modem blob29) 2 := by
  decide

/-- What holds of failures that come back as an error value: if round trips `0`
to `m - 1` of `GetStatus` succeed and round trip `m` (the first one, or a later
one that the loop reaches) returns the error `e` from its selection request, its
refresh request or its decoder, then `GetStatus` returns the error `e` with a
nil status and a nil LineStats list.  A decoder that panics is not covered. -/
theorem GetStatus_aborts_on_failure (L : Float64Lib) (c : Context) (h : List Request)
    (st : Nat → Status L.F) (m : Nat) (e : Err)
    (hok : ∀ k, k < m → RoundTripOk L c (h ++ roundTripLog c k) (lineOf k) (st k))
    (hm : m = 0 ∨ m < (st 0).LineRates.length)
    (hfail : RoundTripFails L c (h ++ roundTripLog c m) (lineOf m) e) :
    (c.GetStatus L h).2 = .ret (none, [], some e) := by
  rcases Nat.eq_zero_or_pos m with rfl | hpos
  · have h1 := statusForLine_fails L c _ _ _ hfail
    simp only [roundTripLog, lineOf, if_true, List.append_nil] at h1
    rcases hsl : c.statusForLine L h 0 with ⟨h', out⟩
    rw [hsl] at h1
    simp only at h1
    subst h1
    simp [Context.GetStatus, hsl]
  · have hm' : m < (st 0).LineRates.length := by omega
    have h0 := hok 0 hpos
    simp only [roundTripLog, lineOf, if_true, List.append_nil] at h0
    have h1 := statusForLine_ok L c h 0 (st 0) h0
    have hlog : h ++ [selectRequest c 0, refreshRequest c] = h ++ roundTripLog c 1 := by
      simp [roundTripLog, lineOf]
    have hloop := getStatusLoop_fails L c h st m e ((st 0).LineRates.length - 1) 1
      [(st 0).LineStats] (le_refl _) hpos (by omega) (fun j _ hj2 => hok j hj2) hfail
    rcases hgl : getStatusLoop L c ((st 0).LineRates.length - 1) (h ++ roundTripLog c 1)
      [(st 0).LineStats] with ⟨h', out⟩
    rw [hgl] at hloop
    simp only at hloop
    subst hloop
    simp [Context.GetStatus, h1, hlog, hgl]

/-- A modem whose second refresh fails: the first round trip succeeds with a
status of two LineRates, the second one returns the error of the refresh. -/
theorem GetStatus_aborts_on_failure_witness :
    1 < status28.LineRates.length ∧
    ((modemFailingLater blob28).GetStatus decimalLib []).2 = .ret (none, [], some (.http 1)) :=
  ⟨by decide, GetStatus_aborts_on_failure decimalLib (modemFailingLater blob28) []
    (fun _ => status28) 1 (.http 1)
    (fun k hk => by
      have hk0 : k = 0 := by omega
      subst hk0
      exact ⟨⟨⟨[], none⟩, rfl⟩, ⟨blob28, none⟩, rfl, rfl, ParseStatus_blob28⟩)
    (Or.inr (by decide))
    (Or.inr ⟨⟨⟨[], none⟩, rfl⟩, Or.inl (Or.inl rfl)⟩)⟩

/-- C9 (failing input): when the blob of a round trip fails to decode because
its packet-counter field has fewer than four parts, the decoder panics and
`GetStatus` returns no error: it panics too, in the first round trip and in a
later one alike, for every client whose selection and refresh succeed. -/
theorem GetStatus_panics_when_decoder_panics :
    ParseStatus decimalLib blobShortPackets = .panic ∧
    (modem blobShortPackets).GetStatus decimalLib [] =
      ([selectRequest (modem blobShortPackets) 0, refreshRequest (modem blobShortPackets)],
        .panic) ∧
    (∀ e, ((modem blobShortPackets).GetStatus decimalLib []).2 ≠ .ret (none, [], some e)) ∧
    (modemThen blob28 blobShortPackets).GetStatus decimalLib [] =
      ([selectRequest (modemThen blob28 blobShortPackets) 0,
        refreshRequest (modemThen blob28 blobShortPackets),
        selectRequest (modemThen blob28 blobShortPackets) 1,
        refreshRequest (modemThen blob28 blobShortPackets)], .panic) ∧
    (∀ (L : Float64Lib) (c : Context) (h : List Request) (r r2 : Response),
      c.client h (selectRequest c 0) = .ok r →
      c.client (h ++ [selectRequest c 0]) (refreshRequest c) = .ok r2 →
      r2.readErr = none → ParseStatus L r2.body = .panic →
      (c.GetStatus L h).2 = .panic) := by
  refine ⟨by decide, by decide, ?_, by decide, ?_⟩
  · intro e h
    have h2 : ((modem blobShortPackets).GetStatus decimalLib []).2 = .panic := by decide
    rw [h2] at h
    cases h
  · intro L c h r r2 hs hr hre hp
    simp [Context.GetStatus, Context.statusForLine, Context.requestStatus,
      Context.refreshStatus, hs, hr, hre, hp]

theorem refreshFails_unique (c : Context) (h : List Request) (e e' : Err)
    (h1 : RefreshFails c h e) (h2 : RefreshFails c h e') : e = e' := by
  rcases h1 with h1 | ⟨r, h1, h1'⟩ <;> rcases h2 with h2 | ⟨r', h2, h2'⟩
  · rw [h1] at h2
    exact Except.error.inj h2
  · rw [h1] at h2
    cases h2
  · rw [h1] at h2
    cases h2
  · rw [h1] at h2
    cases Except.ok.inj h2
    rw [h1'] at h2'
    exact Option.some.inj h2'

theorem select_ne_refresh (c : Context) (line : Int) : selectRequest c line ≠ refreshRequest c := by
  simp [selectRequest, refreshRequest]

/-- The three ways a call of `statusForLine` can go: the selection fails, the
refresh fails, or both succeed and the outcome is that of the decoder. -/
theorem statusForLine_cases (L : Float64Lib) (c : Context) (h : List Request) (line : Int) :
    (∃ e, c.client h (selectRequest c line) = .error e ∧
      c.statusForLine L h line = (h ++ [selectRequest c line], .ret (none, some e))) ∨
    (∃ r e, c.client h (selectRequest c line) = .ok r ∧
      RefreshFails c (h ++ [selectRequest c line]) e ∧
      c.statusForLine L h line =
        (h ++ [selectRequest c line, refreshRequest c], .ret (none, some e))) ∨
    (∃ r r2, c.client h (selectRequest c line) = .ok r ∧
      c.client (h ++ [selectRequest c line]) (refreshRequest c) = .ok r2 ∧
      r2.readErr = none ∧
      (c.statusForLine L h line).1 = h ++ [selectRequest c line, refreshRequest c]) := by
  rcases hs : c.client h (selectRequest c line) with e | r
  · left
    exact ⟨e, rfl, by simp [Context.statusForLine, Context.requestStatus, hs]⟩
  · right
    rcases hr : c.client (h ++ [selectRequest c line]) (refreshRequest c) with e | r2
    · left
      exact ⟨r, e, rfl, Or.inl hr,
        by simp [Context.statusForLine, Context.requestStatus, Context.refreshStatus, hs, hr]⟩
    · rcases hre : r2.readErr with _ | e
      · right
        refine ⟨r, r2, rfl, rfl, hre, ?_⟩
        simp only [Context.statusForLine, Context.requestStatus, Context.refreshStatus, hs, hr,
          hre]
        rcases ParseStatus L r2.body with ⟨x, _ | e⟩ | _ <;> simp
      · left
        exact ⟨r, e, rfl, Or.inr ⟨r2, hr, hre⟩,
          by simp [Context.statusForLine, Context.requestStatus, Context.refreshStatus, hs, hr,
            hre]⟩

theorem getStatusLoop_rounds (L : Float64Lib) (c : Context) (k : Nat) :
    ∀ (h : List Request) (ls : List (LineStats L.F)),
      ∃ new t, (getStatusLoop L c k h ls).1 = h ++ new ∧ Rounds c h new t ∧
        ∀ e, t = some e → (getStatusLoop L c k h ls).2 = .ret ([], some e) := by
  induction k with
  | zero =>
    intro h ls
    exact ⟨[], none, by simp [getStatusLoop], Rounds.done h, by simp⟩
  | succ k ih =>
    intro h ls
    rcases statusForLine_cases L c h 1 with ⟨e, hs, hsl⟩ | ⟨r, e, hs, hf, hsl⟩ |
      ⟨r, r2, hs, hr, hre, hsl⟩
    · exact ⟨_, some e, by simp [getStatusLoop, hsl], Rounds.selectFailed h 1 e hs,
        by simp [getStatusLoop, hsl]⟩
    · exact ⟨_, some e, by simp [getStatusLoop, hsl], Rounds.refreshFailed h 1 r e hs hf,
        by simp [getStatusLoop, hsl]⟩
    · rcases hout : c.statusForLine L h 1 with ⟨h1, out⟩
      rw [hout] at hsl
      simp only at hsl
      subst hsl
      have hstop : Rounds c h [selectRequest c 1, refreshRequest c] none :=
        Rounds.round h 1 r r2 [] none hs hr hre (Rounds.done _)
      rcases out with ⟨x, _ | e⟩ | _
      · rcases x with _ | lineStatus
        · exact ⟨_, none, by simp [getStatusLoop, hout], hstop, by simp⟩
        · obtain ⟨new, t, h1, h2, h3⟩ :=
            ih (h ++ [selectRequest c 1, refreshRequest c]) (ls ++ [lineStatus.LineStats])
          refine ⟨selectRequest c 1 :: refreshRequest c :: new, t, ?_,
            Rounds.round h 1 r r2 new t hs hr hre h2, ?_⟩
          · simp [getStatusLoop, hout, h1]
          · intro e he
            simpa [getStatusLoop, hout] using h3 e he
      · exact ⟨_, none, by simp [getStatusLoop, hout], hstop, by simp⟩
      · exact ⟨_, none, by simp [getStatusLoop, hout], hstop, by simp⟩

theorem GetStatus_rounds (L : Float64Lib) (c : Context) (h : List Request) :
    ∃ new t, (c.GetStatus L h).1 = h ++ new ∧ Rounds c h new t ∧
      ∀ e, t = some e → (c.GetStatus L h).2 = .ret (none, [], some e) := by
  rcases statusForLine_cases L c h 0 with ⟨e, hs, hsl⟩ | ⟨r, e, hs, hf, hsl⟩ |
    ⟨r, r2, hs, hr, hre, hsl⟩
  · exact ⟨_, some e, by simp [Context.GetStatus, hsl], Rounds.selectFailed h 0 e hs,
      by simp [Context.GetStatus, hsl]⟩
  · exact ⟨_, some e, by simp [Context.GetStatus, hsl], Rounds.refreshFailed h 0 r e hs hf,
      by simp [Context.GetStatus, hsl]⟩
  · rcases hout : c.statusForLine L h 0 with ⟨h1, out⟩
    rw [hout] at hsl
    simp only at hsl
    subst hsl
    have hstop : Rounds c h [selectRequest c 0, refreshRequest c] none :=
      Rounds.round h 0 r r2 [] none hs hr hre (Rounds.done _)
    rcases out with ⟨x, _ | e⟩ | _
    · rcases x with _ | status
      · exact ⟨_, none, by simp [Context.GetStatus, hout], hstop, by simp⟩
      · obtain ⟨new, t, h1, h2, h3⟩ :=
          getStatusLoop_rounds L c (status.LineRates.length - 1)
            (h ++ [selectRequest c 0, refreshRequest c]) [status.LineStats]
        rcases hloop : getStatusLoop L c (status.LineRates.length - 1)
          (h ++ [selectRequest c 0, refreshRequest c]) [status.LineStats] with ⟨h2', out2⟩
        rw [hloop] at h1 h3
        simp only at h1 h3
        subst h1
        refine ⟨selectRequest c 0 :: refreshRequest c :: new, t, ?_,
          Rounds.round h 0 r r2 new t hs hr hre h2, ?_⟩
        · simp only [Context.GetStatus, hout, hloop]
          rcases out2 with ⟨ls, _ | e⟩ | _ <;> simp
        · intro e he
          have h4 := h3 e he
          subst h4
          simp [Context.GetStatus, hout, hloop]
    · exact ⟨_, none, by simp [Context.GetStatus, hout], hstop, by simp⟩
    · exact ⟨_, none, by simp [Context.GetStatus, hout], hstop, by simp⟩

/-- In a run of round trips every refresh comes right after a selection that
the client accepted. -/
theorem rounds_refresh_preceded (c : Context) (h new : List Request) (t : Option Err)
    (hr : Rounds c h new t) :
    ∀ j, new[j]? = some (refreshRequest c) →
      0 < j ∧ ∃ line r, new[j - 1]? = some (selectRequest c line) ∧
        c.client (h ++ new.take (j - 1)) (selectRequest c line) = .ok r := by
  induction hr with
  | done h => intro j hj; simp at hj
  | selectFailed h line e hs =>
    intro j hj
    rcases j with _ | j
    · simp at hj
      exact absurd hj (select_ne_refresh c line)
    · simp at hj
  | refreshFailed h line r e hs hf =>
    intro j hj
    rcases j with _ | _ | j
    · simp at hj
      exact absurd hj (select_ne_refresh c line)
    · exact ⟨by omega, line, r, by simp, by simpa using hs⟩
    · simp at hj
  | round h line r r2 rest t hs hr hre hrest ih =>
    intro j hj
    rcases j with _ | _ | j
    · simp at hj
      exact absurd hj (select_ne_refresh c line)
    · exact ⟨by omega, line, r, by simp, by simpa using hs⟩
    · have hj' : rest[j]? = some (refreshRequest c) := by simpa using hj
      obtain ⟨hpos, line', r', h1, h2⟩ := ih j hj'
      obtain ⟨i, rfl⟩ : ∃ i, j = i + 1 := ⟨j - 1, by omega⟩
      refine ⟨by omega, line', r', by simpa using h1, ?_⟩
      simpa using h2

/-- In a run of round trips a request that the client answers with an error is
the last one, and its error is the one recorded. -/
theorem rounds_request_error (c : Context) (h new : List Request) (t : Option Err)
    (hr : Rounds c h new t) :
    ∀ j req e, new[j]? = some req → c.client (h ++ new.take j) req = .error e →
      j + 1 = new.length ∧ t = some e := by
  induction hr with
  | done h => intro j req e hj; simp at hj
  | selectFailed h line e0 hs =>
    intro j req e hj he
    rcases j with _ | j
    · simp at hj
      subst hj
      simp at he
      rw [hs] at he
      exact ⟨by simp, by rw [Except.error.inj he]⟩
    · simp at hj
  | refreshFailed h line r e0 hs hf =>
    intro j req e hj he
    rcases j with _ | _ | j
    · simp at hj
      subst hj
      simp at he
      rw [hs] at he
      cases he
    · simp at hj
      subst hj
      simp at he
      exact ⟨by simp, by rw [refreshFails_unique c _ _ _ hf (Or.inl he)]⟩
    · simp at hj
  | round h line r r2 rest t hs hr hre hrest ih =>
    intro j req e hj he
    rcases j with _ | _ | j
    · simp at hj
      subst hj
      simp at he
      rw [hs] at he
      cases he
    · simp at hj
      subst hj
      simp at he
      rw [hr] at he
      cases he
    · have hj' : rest[j]? = some req := by simpa using hj
      have he' : c.client (h ++ [selectRequest c line, refreshRequest c] ++ rest.take j) req =
          .error e := by simpa using he
      obtain ⟨h1, h2⟩ := ih j req e hj' he'
      exact ⟨by simp; omega, h2⟩

/-- In a run of round trips a refresh that fails (in the request or in reading
the body) is the last request, and its error is the one recorded. -/
theorem rounds_refresh_failure (c : Context) (h new : List Request) (t : Option Err)
    (hr : Rounds c h new t) :
    ∀ j e, new[j]? = some (refreshRequest c) → RefreshFails c (h ++ new.take j) e →
      j + 1 = new.length ∧ t = some e := by
  induction hr with
  | done h => intro j e hj; simp at hj
  | selectFailed h line e0 hs =>
    intro j e hj he
    rcases j with _ | j
    · simp at hj
      exact absurd hj (select_ne_refresh c line)
    · simp at hj
  | refreshFailed h line r e0 hs hf =>
    intro j e hj he
    rcases j with _ | _ | j
    · simp at hj
      exact absurd hj (select_ne_refresh c line)
    · simp at he
      exact ⟨by simp, by rw [refreshFails_unique c _ _ _ hf he]⟩
    · simp at hj
  | round h line r r2 rest t hs hr hre hrest ih =>
    intro j e hj he
    rcases j with _ | _ | j
    · simp at hj
      exact absurd hj (select_ne_refresh c line)
    · simp at he
      rcases he with he | ⟨r', he, he'⟩
      · rw [hr] at he
        cases he
      · rw [hr] at he
        cases Except.ok.inj he
        rw [hre] at he'
        cases he'
    · have hj' : rest[j]? = some (refreshRequest c) := by simpa using hj
      have he' : RefreshFails c (h ++ [selectRequest c line, refreshRequest c] ++ rest.take j) e := by
        simpa using he
      obtain ⟨h1, h2⟩ := ih j e hj' he'
      exact ⟨by simp; omega, h2⟩

/-- C10: in the requests `GetStatus` issues, every refresh GET comes right
after a selection POST that the client accepted; a request that the client
answers with an error is the last request issued (so no refresh follows a
failed selection) and `GetStatus` returns that error; and when a refresh fails,
in the request or in reading its body, it is the last request and `GetStatus`
returns the error of the refresh with no status, not an outcome of the decoder. -/
theorem GetStatus_request_order (L : Float64Lib) (c : Context) (h : List Request) :
    ∃ new, (c.GetStatus L h).1 = h ++ new ∧
      (∀ j, new[j]? = some (refreshRequest c) →
        0 < j ∧ ∃ line r, new[j - 1]? = some (selectRequest c line) ∧
          c.client (h ++ new.take (j - 1)) (selectRequest c line) = .ok r) ∧
      (∀ j req e, new[j]? = some req → c.client (h ++ new.take j) req = .error e →
        j + 1 = new.length ∧ (c.GetStatus L h).2 = .ret (none, [], some e)) ∧
      (∀ j e, new[j]? = some (refreshRequest c) → RefreshFails c (h ++ new.take j) e →
        j + 1 = new.length ∧ (c.GetStatus L h).2 = .ret (none, [], some e)) := by
  obtain ⟨new, t, h1, h2, h3⟩ := GetStatus_rounds L c h
  refine ⟨new, h1, rounds_refresh_preceded c h new t h2, ?_, ?_⟩
  · intro j req e hj he
    obtain ⟨h4, h5⟩ := rounds_request_error c h new t h2 j req e hj he
    exact ⟨h4, h3 e h5⟩
  · intro j e hj he
    obtain ⟨h4, h5⟩ := rounds_refresh_failure c h new t h2 j e hj he
    exact ⟨h4, h3 e h5⟩

/-! ## Facts about the library functions -/

theorem foldl_decimal_ge (cs : Str) (n : Nat) :
    n ≤ cs.foldl (fun n c => n * 10 + (c.toNat - 48)) n := by
  induction cs generalizing n with
  | nil => simp
  | cons c cs ih =>
    simp only [List.foldl_cons]
    exact le_trans (by omega) (ih _)

/-- The digit loop of `ParseUint` accepts exactly the digit strings whose value,
continued from `n`, fits in 64 bits, and returns that value. -/
theorem ParseUintLoop_ok_iff (s0 : Str) (cs : Str) (n v : Nat) (hn : n ≤ maxUint64) :
    ParseUintLoop s0 cs n = (v, none) ↔
      (∀ c ∈ cs, 48 ≤ c.toNat ∧ c.toNat ≤ 57) ∧
        cs.foldl (fun n c => n * 10 + (c.toNat - 48)) n = v ∧ v ≤ maxUint64 := by
  induction cs generalizing n with
  | nil =>
    simp only [ParseUintLoop, List.foldl_nil, Prod.mk.injEq, and_true, List.not_mem_nil,
      false_implies, implies_true, true_and]
    constructor
    · intro h; exact ⟨h, h ▸ hn⟩
    · intro h; exact h.1
  | cons c cs ih =>
    unfold ParseUintLoop
    simp only [List.foldl_cons, List.mem_cons, forall_eq_or_imp]
    have hge := foldl_decimal_ge cs (n * 10 + (c.toNat - 48))
    unfold maxUint64 at hn hge ⊢
    by_cases hd : 48 ≤ c.toNat ∧ c.toNat ≤ 57
    · rw [if_pos hd]
      by_cases hcut : n ≥ 18446744073709551615 / 10 + 1
      · rw [if_pos hcut]
        simp only [Prod.mk.injEq, reduceCtorEq, and_false, false_iff, not_and]
        intro _ h1 h2
        omega
      · rw [if_neg hcut]
        by_cases hw : (n * 10 % 2 ^ 64 + (c.toNat - 48)) % 2 ^ 64 < n * 10 % 2 ^ 64 ∨
            (n * 10 % 2 ^ 64 + (c.toNat - 48)) % 2 ^ 64 > 18446744073709551615
        · rw [if_pos hw]
          simp only [Prod.mk.injEq, reduceCtorEq, and_false, false_iff, not_and]
          intro _ h1 h2
          omega
        · rw [if_neg hw]
          have e : (n * 10 % 2 ^ 64 + (c.toNat - 48)) % 2 ^ 64 = n * 10 + (c.toNat - 48) := by
            omega
          rw [e]
          have := ih (n * 10 + (c.toNat - 48)) (by unfold maxUint64; omega)
          unfold maxUint64 at this
          rw [this]
          simp [hd]
    · rw [if_neg hd]
      simp only [Prod.mk.injEq, reduceCtorEq, and_false, false_iff]
      intro h
      exact hd h.1.1

/-- The function `ParseUint` accepts exactly the unsigned 64-bit decimals. -/
theorem ParseUint_ok_iff (s : Str) (v : Nat) :
    ParseUint s = (v, none) ↔ IsUint64Decimal s v := by
  unfold ParseUint IsUint64Decimal decimalValue
  by_cases hs : s = []
  · simp [hs]
  · rw [if_neg hs, ParseUintLoop_ok_iff s s 0 v (by unfold maxUint64; omega)]
    unfold maxUint64
    simp only [hs, ne_eq, not_false_eq_true, true_and]
    constructor
    · rintro ⟨h1, h2, h3⟩
      exact ⟨h1, h2, by omega⟩
    · rintro ⟨h1, h2, h3⟩
      exact ⟨h1, h2, by omega⟩

/-! ## Facts about `Split` -/

theorem Split_single (s : Str) (c : Char) : Split s [c] = splitAux [c] s 0 [] := by
  simp [Split]

theorem splitAux_single_cons (c d : Char) (cs acc : Str) :
    splitAux [c] (d :: cs) 0 acc =
      if c = d then acc.reverse :: splitAux [c] cs 0 [] else splitAux [c] cs 0 (d :: acc) := by
  rw [splitAux]
  simp [List.isPrefixOf_cons₂]

/-- A string without the separator character is a single piece. -/
theorem splitAux_single_not_mem (c : Char) (s : Str) :
    ∀ acc : Str, c ∉ s → splitAux [c] s 0 acc = [acc.reverse ++ s] := by
  induction s with
  | nil => intro acc _; simp [splitAux]
  | cons d cs ih =>
    intro acc h
    have hd : c ≠ d := fun e => h (by simp [e])
    have hcs : c ∉ cs := fun e => h (by simp [e])
    rw [splitAux_single_cons, if_neg hd, ih _ hcs]
    simp

/-- The first piece ends at the first occurrence of the separator character. -/
theorem splitAux_single_append (c : Char) (a b : Str) :
    ∀ acc : Str, c ∉ a →
      splitAux [c] (a ++ c :: b) 0 acc = (acc.reverse ++ a) :: splitAux [c] b 0 [] := by
  induction a with
  | nil => intro acc _; simp [splitAux_single_cons]
  | cons d cs ih =>
    intro acc h
    have hd : c ≠ d := fun e => h (by simp [e])
    have hcs : c ∉ cs := fun e => h (by simp [e])
    rw [List.cons_append, splitAux_single_cons, if_neg hd, ih _ hcs]
    simp

/-- Splitting on a character gives one piece more than there are occurrences
of it. -/
theorem splitAux_single_length (c : Char) (s : Str) :
    ∀ acc : Str, (splitAux [c] s 0 acc).length = s.count c + 1 := by
  induction s with
  | nil => intro acc; simp [splitAux]
  | cons d cs ih =>
    intro acc
    rw [splitAux_single_cons]
    by_cases hd : c = d
    · subst hd
      simp [ih]
    · rw [if_neg hd, ih, List.count_cons]
      have : (d == c) = false := by simpa using fun e => hd e.symm
      simp [this]

theorem Split_single_not_mem (c : Char) (s : Str) (h : c ∉ s) : Split s [c] = [s] := by
  rw [Split_single, splitAux_single_not_mem c s [] h]
  simp

theorem Split_single_append (c : Char) (a b : Str) (h : c ∉ a) :
    Split (a ++ c :: b) [c] = a :: Split b [c] := by
  rw [Split_single, Split_single, splitAux_single_append c a b [] h]
  simp

theorem Split_single_length (c : Char) (s : Str) : (Split s [c]).length = s.count c + 1 := by
  rw [Split_single, splitAux_single_length]

/-- A string splits on a character into exactly the two pieces `a` and `b` when
it is `a`, the character, `b`, and the character occurs in neither piece. -/
theorem Split_single_eq_pair (c : Char) (s a b : Str) :
    Split s [c] = [a, b] ↔ s = a ++ c :: b ∧ c ∉ a ∧ c ∉ b := by
  constructor
  · intro h
    have hlen := Split_single_length c s
    rw [h] at hlen
    have hmem : c ∈ s := by
      by_contra hn
      rw [List.count_eq_zero.2 hn] at hlen
      simp at hlen
    obtain ⟨a', b', rfl, ha'⟩ := List.eq_append_cons_of_mem hmem
    rw [Split_single_append c a' b' ha'] at h
    have hb' : c ∉ b' := by
      intro hb
      have := Split_single_length c b'
      have hpos : 0 < b'.count c := List.count_pos_iff.2 hb
      have h2 := congrArg List.length h
      simp at h2
      omega
    rw [Split_single_not_mem c b' hb'] at h
    simp only [List.cons.injEq, and_true] at h
    obtain ⟨rfl, rfl⟩ := h
    exact ⟨rfl, ha', hb'⟩
  · rintro ⟨rfl, ha, hb⟩
    rw [Split_single_append c a b ha, Split_single_not_mem c b hb]

/-- A string splits on a character into a single piece when the character does
not occur in it, and the piece is the string. -/
theorem Split_single_eq_one (c : Char) (s a : Str) :
    Split s [c] = [a] ↔ s = a ∧ c ∉ s := by
  constructor
  · intro h
    have hlen := Split_single_length c s
    rw [h] at hlen
    have hmem : c ∉ s := by
      apply List.count_eq_zero.1
      simpa using hlen.symm
    rw [Split_single_not_mem c s hmem] at h
    simp only [List.cons.injEq, and_true] at h
    exact ⟨h, hmem⟩
  · rintro ⟨rfl, h⟩
    exact Split_single_not_mem c s h

/-! ## Facts about the sub-decoders -/

theorem digits_not_mem (s : Str) (c : Char) (hs : ∀ d ∈ s, 48 ≤ d.toNat ∧ d.toNat ≤ 57)
    (hc : c.toNat < 48 ∨ 57 < c.toNat) : c ∉ s := by
  intro h
  have := hs c h
  omega

theorem stringToState_ok_iff (s : Str) (st : State) :
    stringToState s = (st, none) ↔
      (s = "Up".toList ∧ st = .Up) ∨
      (s = "EstablishingLink".toList ∧ st = .EstablishingLink) ∨
      (s = "Down".toList ∧ st = .Down) := by
  unfold stringToState
  by_cases h1 : s = "Up".toList
  · subst h1
    simp only [if_true, Prod.mk.injEq, and_true, true_and]
    constructor
    · intro h; exact Or.inl h.symm
    · rintro (h | ⟨h, _⟩ | ⟨h, _⟩)
      · exact h.symm
      · exact absurd h (by decide)
      · exact absurd h (by decide)
  · rw [if_neg h1]
    by_cases h2 : s = "EstablishingLink".toList
    · subst h2
      simp only [if_true, Prod.mk.injEq, and_true, true_and]
      constructor
      · intro h; exact Or.inr (Or.inl h.symm)
      · rintro (⟨h, _⟩ | h | ⟨h, _⟩)
        · exact absurd h (by decide)
        · exact h.symm
        · exact absurd h (by decide)
    · rw [if_neg h2]
      by_cases h3 : s = "Down".toList
      · subst h3
        simp only [if_true, Prod.mk.injEq, and_true, true_and]
        constructor
        · intro h; exact Or.inr (Or.inr h.symm)
        · rintro (⟨h, _⟩ | ⟨h, _⟩ | h)
          · exact absurd h (by decide)
          · exact absurd h (by decide)
          · exact h.symm
      · rw [if_neg h3]
        simp only [Prod.mk.injEq, reduceCtorEq, and_false, false_iff]
        rintro (⟨h, _⟩ | ⟨h, _⟩ | ⟨h, _⟩)
        · exact h1 h
        · exact h2 h
        · exact h3 h

/-- C18: `stringToState` succeeds exactly on the three literals `Up`,
`EstablishingLink` and `Down`, compared as whole strings and with their case,
and returns the matching state; every other string fails, the empty string and
strings that differ from a literal in case or by an extra character included. -/
theorem stringToState_exact_literals :
    (∀ (s : Str) (st : State), stringToState s = (st, none) ↔
      (s = "Up".toList ∧ st = .Up) ∨
      (s = "EstablishingLink".toList ∧ st = .EstablishingLink) ∨
      (s = "Down".toList ∧ st = .Down)) ∧
    (∀ s : Str, (stringToState s).2 ≠ none ↔
      s ≠ "Up".toList ∧ s ≠ "EstablishingLink".toList ∧ s ≠ "Down".toList) ∧
    (stringToState "".toList).2 ≠ none ∧ (stringToState "foo".toList).2 ≠ none ∧
    (stringToState "up".toList).2 ≠ none ∧ (stringToState "DOWN".toList).2 ≠ none ∧
    (stringToState "Up ".toList).2 ≠ none ∧ (stringToState "Establishing".toList).2 ≠ none := by
  refine ⟨stringToState_ok_iff, ?_, by decide, by decide, by decide, by decide, by decide,
    by decide⟩
  intro s
  unfold stringToState
  by_cases h1 : s = "Up".toList
  · simp [h1]
  · by_cases h2 : s = "EstablishingLink".toList
    · simp [h2]
    · by_cases h3 : s = "Down".toList
      · simp [h3]
      · rw [if_neg h1, if_neg h2, if_neg h3]
        exact ⟨fun _ => ⟨h1, h2, h3⟩, fun _ => by simp⟩

/-- C19: `stringToChannelType` succeeds exactly on `0`, giving Interleaved, and
on `1`, giving FastChannel; every other string fails. -/
theorem stringToChannelType_exact_literals :
    (∀ (s : Str) (ct : ChannelType), stringToChannelType s = (ct, none) ↔
      (s = "0".toList ∧ ct = .Interleaved) ∨ (s = "1".toList ∧ ct = .FastChannel)) ∧
    (∀ s : Str, (stringToChannelType s).2 ≠ none ↔ s ≠ "0".toList ∧ s ≠ "1".toList) ∧
    (stringToChannelType "".toList).2 ≠ none ∧ (stringToChannelType "2".toList).2 ≠ none ∧
    (stringToChannelType "foo".toList).2 ≠ none ∧ (stringToChannelType "01".toList).2 ≠ none := by
  refine ⟨?_, ?_, by decide, by decide, by decide, by decide⟩
  · intro s ct
    unfold stringToChannelType
    by_cases h1 : s = "0".toList
    · subst h1
      simp only [if_true, Prod.mk.injEq, and_true, true_and]
      constructor
      · intro h; exact Or.inl h.symm
      · rintro (h | ⟨h, _⟩)
        · exact h.symm
        · exact absurd h (by decide)
    · rw [if_neg h1]
      by_cases h2 : s = "1".toList
      · subst h2
        simp only [if_true, Prod.mk.injEq, and_true, true_and]
        constructor
        · intro h; exact Or.inr h.symm
        · rintro (⟨h, _⟩ | h)
          · exact absurd h (by decide)
          · exact h.symm
      · rw [if_neg h2]
        simp only [Prod.mk.injEq, reduceCtorEq, and_false, false_iff]
        rintro (⟨h, _⟩ | ⟨h, _⟩)
        · exact h1 h
        · exact h2 h
  · intro s
    unfold stringToChannelType
    by_cases h1 : s = "0".toList
    · simp [h1]
    · by_cases h2 : s = "1".toList
      · simp [h2]
      · rw [if_neg h1, if_neg h2]
        exact ⟨fun _ => ⟨h1, h2⟩, fun _ => by simp⟩

theorem stringToUintPair_ok_iff (s : Str) (pair : UintPair) :
    stringToUintPair s = (pair, none) ↔
      ∃ a b, Split s "/".toList = [a, b] ∧
        IsUint64Decimal a pair.Down ∧ IsUint64Decimal b pair.Up := by
  unfold stringToUintPair
  simp only [← ParseUint_ok_iff]
  rcases hsplit : Split s "/".toList with _ | ⟨a, _ | ⟨b, _ | ⟨c, rest⟩⟩⟩
  · simp
  · simp
  · rcases pair with ⟨up, down⟩
    rcases ha : ParseUint a with ⟨va, _ | ea⟩
    · rcases hb : ParseUint b with ⟨vb, _ | eb⟩
      · simp only [List.length_cons, List.length_nil, ne_eq, not_true_eq_false, if_false,
          List.getD_cons_zero, List.getD_cons_succ, ha, hb]
        constructor
        · intro h
          simp only [Prod.mk.injEq, UintPair.mk.injEq, and_true] at h
          exact ⟨a, b, rfl, by rw [ha, h.2], by rw [hb, h.1]⟩
        · rintro ⟨a', b', hab, h1, h2⟩
          simp only [List.cons.injEq, and_true] at hab
          obtain ⟨rfl, rfl⟩ := hab
          rw [ha] at h1
          rw [hb] at h2
          simp only [Prod.mk.injEq, and_true] at h1 h2
          rw [h1, h2]
      · simp only [List.length_cons, List.length_nil, ne_eq, not_true_eq_false, if_false,
          List.getD_cons_zero, List.getD_cons_succ, ha, hb]
        constructor
        · intro h
          simp at h
        · rintro ⟨a', b', hab, h1, h2⟩
          simp only [List.cons.injEq, and_true] at hab
          obtain ⟨rfl, rfl⟩ := hab
          rw [hb] at h2
          simp at h2
    · simp only [List.length_cons, List.length_nil, ne_eq, not_true_eq_false, if_false,
        List.getD_cons_zero, ha]
      constructor
      · intro h
        simp at h
      · rintro ⟨a', b', hab, h1, h2⟩
        simp only [List.cons.injEq, and_true] at hab
        obtain ⟨rfl, rfl⟩ := hab
        rw [ha] at h1
        simp at h1
  · simp


/-- C12: `stringToUintPair` succeeds exactly when the input splits on `/` into
exactly two parts, that is, when it is `a/b` with `a` and `b` unsigned 64-bit
decimals (non-empty, digits only, value below `2^64`); then Down is the value of
`a` and Up the value of `b`.  Every other input fails. -/
theorem stringToUintPair_exact :
    (∀ (s : Str) (pair : UintPair), stringToUintPair s = (pair, none) ↔
      ∃ a b, Split s "/".toList = [a, b] ∧
        IsUint64Decimal a pair.Down ∧ IsUint64Decimal b pair.Up) ∧
    (∀ (s : Str) (pair : UintPair), stringToUintPair s = (pair, none) ↔
      ∃ a b, s = a ++ '/' :: b ∧
        IsUint64Decimal a pair.Down ∧ IsUint64Decimal b pair.Up) ∧
    (∀ s : Str, (stringToUintPair s).2 ≠ none ↔
      ¬ ∃ a b va vb, Split s "/".toList = [a, b] ∧
        IsUint64Decimal a va ∧ IsUint64Decimal b vb) ∧
    stringToUintPair "1/2".toList = (⟨2, 1⟩, none) ∧
    stringToUintPair "1000000/4200000".toList = (⟨4200000, 1000000⟩, none) ∧
    stringToUintPair "18446744073709551615/0".toList = (⟨0, 18446744073709551615⟩, none) ∧
    (stringToUintPair "18446744073709551616/0".toList).2 ≠ none ∧
    (stringToUintPair "".toList).2 ≠ none ∧ (stringToUintPair "1/".toList).2 ≠ none ∧
    (stringToUintPair "a/b".toList).2 ≠ none ∧ (stringToUintPair "1/2/3".toList).2 ≠ none ∧
    (stringToUintPair "/".toList).2 ≠ none ∧ (stringToUintPair "+1/2".toList).2 ≠ none ∧
    (stringToUintPair "1/ 2".toList).2 ≠ none := by
  refine ⟨stringToUintPair_ok_iff, ?_, ?_, by decide, by decide, by decide, by decide, by decide,
    by decide, by decide, by decide, by decide, by decide, by decide⟩
  · intro s pair
    rw [stringToUintPair_ok_iff]
    constructor
    · rintro ⟨a, b, hab, ha, hb⟩
      exact ⟨a, b, ((Split_single_eq_pair '/' s a b).1 hab).1, ha, hb⟩
    · rintro ⟨a, b, rfl, ha, hb⟩
      refine ⟨a, b, (Split_single_eq_pair '/' _ a b).2 ⟨rfl, ?_, ?_⟩, ha, hb⟩
      · exact digits_not_mem a '/' ha.2.1 (Or.inl (by decide))
      · exact digits_not_mem b '/' hb.2.1 (Or.inl (by decide))
  · intro s
    constructor
    · rintro h ⟨a, b, va, vb, hab, ha, hb⟩
      have := (stringToUintPair_ok_iff s ⟨vb, va⟩).2 ⟨a, b, hab, ha, hb⟩
      rw [this] at h
      exact h rfl
    · intro h hnone
      have heq : stringToUintPair s = ((stringToUintPair s).1, none) := by
        rw [← hnone]
      obtain ⟨a, b, hab, ha, hb⟩ := (stringToUintPair_ok_iff s _).1 heq
      exact h ⟨a, b, _, _, hab, ha, hb⟩

theorem stringToLineRate_ok_iff (s : Str) (rate : LineRate) :
    stringToLineRate s = (rate, none) ↔
      3 ≤ (Split s "|".toList).length ∧
      stringToState ((Split s "|".toList).getD 0 []) = (rate.State, none) ∧
      ParseUint ((Split s "|".toList).getD 1 []) = (rate.Rates.Up, none) ∧
      ParseUint ((Split s "|".toList).getD 2 []) = (rate.Rates.Down, none) := by
  unfold stringToLineRate
  simp only
  rcases rate with ⟨⟨up, down⟩, st⟩
  by_cases hlen : (Split s "|".toList).length < 3
  · rw [if_pos hlen]
    simp only [Prod.mk.injEq, reduceCtorEq, and_false, false_iff]
    omega
  · rw [if_neg hlen]
    rcases h0 : stringToState ((Split s "|".toList).getD 0 []) with ⟨v0, _ | e0⟩
    · rcases h1 : ParseUint ((Split s "|".toList).getD 1 []) with ⟨v1, _ | e1⟩
      · rcases h2 : ParseUint ((Split s "|".toList).getD 2 []) with ⟨v2, _ | e2⟩
        · simp only [Prod.mk.injEq, LineRate.mk.injEq, Rates.mk.injEq, and_true]
          constructor
          · rintro ⟨⟨h1, h2⟩, h3⟩; exact ⟨by omega, h3, h1, h2⟩
          · rintro ⟨_, h3, h1, h2⟩; exact ⟨⟨h1, h2⟩, h3⟩
        · simp
      · simp
    · simp

/-- C13: `stringToLineRate` succeeds exactly when the input splits on `|` into
at least 3 parts, part 0 is one of the state tokens and parts 1 and 2 are
unsigned 64-bit decimals; then State is the state of part 0, Up the value of
part 1 and Down the value of part 2 (up first, unlike the slash pair).  Inputs
with at least 3 parts that agree on the first three give the same result. -/
theorem stringToLineRate_exact :
    (∀ (s : Str) (rate : LineRate), stringToLineRate s = (rate, none) ↔
      3 ≤ (Split s "|".toList).length ∧
      (((Split s "|".toList).getD 0 [] = "Up".toList ∧ rate.State = .Up) ∨
        ((Split s "|".toList).getD 0 [] = "EstablishingLink".toList ∧
          rate.State = .EstablishingLink) ∨
        ((Split s "|".toList).getD 0 [] = "Down".toList ∧ rate.State = .Down)) ∧
      IsUint64Decimal ((Split s "|".toList).getD 1 []) rate.Rates.Up ∧
      IsUint64Decimal ((Split s "|".toList).getD 2 []) rate.Rates.Down) ∧
    (∀ s other : Str, 3 ≤ (Split s "|".toList).length → 3 ≤ (Split other "|".toList).length →
      (Split other "|".toList).getD 0 [] = (Split s "|".toList).getD 0 [] →
      (Split other "|".toList).getD 1 [] = (Split s "|".toList).getD 1 [] →
      (Split other "|".toList).getD 2 [] = (Split s "|".toList).getD 2 [] →
      stringToLineRate other = stringToLineRate s) ∧
    stringToLineRate "Up|100|200".toList = (⟨⟨100, 200⟩, .Up⟩, none) ∧
    stringToLineRate "Down|0|0".toList = (⟨⟨0, 0⟩, .Down⟩, none) ∧
    stringToLineRate "Up|100|200|junk|".toList = (⟨⟨100, 200⟩, .Up⟩, none) ∧
    (stringToLineRate "".toList).2 ≠ none ∧ (stringToLineRate "||".toList).2 ≠ none ∧
    (stringToLineRate "0||".toList).2 ≠ none ∧ (stringToLineRate "Up|0|".toList).2 ≠ none := by
  refine ⟨?_, ?_, by decide, by decide, by decide, by decide, by decide, by decide, by decide⟩
  · intro s rate
    rw [stringToLineRate_ok_iff, stringToState_ok_iff, ParseUint_ok_iff, ParseUint_ok_iff]
  · intro s other h1 h2 e0 e1 e2
    unfold stringToLineRate
    simp only [if_neg (Nat.not_lt.2 h1), if_neg (Nat.not_lt.2 h2), e0, e1, e2]

theorem stringToPackets_of_four (s p0 p1 p2 p3 : Str) (rest : List Str)
    (h : Split s "|".toList = p0 :: p1 :: p2 :: p3 :: rest) (pk : PacketPair) :
    stringToPackets s ≠ .panic ∧
    (stringToPackets s = .ret (pk, none) ↔
      ParseUint p0 = (pk.Received.Count, none) ∧ ParseUint p1 = (pk.Received.Errors, none) ∧
      ParseUint p2 = (pk.Transmitted.Count, none) ∧
      ParseUint p3 = (pk.Transmitted.Errors, none)) := by
  unfold stringToPackets
  simp only [h, List.getElem?_cons_zero, List.getElem?_cons_succ]
  rcases pk with ⟨⟨a, b⟩, ⟨c, d⟩⟩
  rcases h0 : ParseUint p0 with ⟨v0, _ | e0⟩
  · rcases h1 : ParseUint p1 with ⟨v1, _ | e1⟩
    · rcases h2 : ParseUint p2 with ⟨v2, _ | e2⟩
      · rcases h3 : ParseUint p3 with ⟨v3, _ | e3⟩
        · simp only [ne_eq, reduceCtorEq, not_false_eq_true, Go.ret.injEq, Prod.mk.injEq,
            PacketPair.mk.injEq, Packets.mk.injEq, and_true, true_and]
          constructor
          · rintro ⟨⟨h1, h2⟩, h3, h4⟩; exact ⟨h1, h2, h3, h4⟩
          · rintro ⟨h1, h2, h3, h4⟩; exact ⟨⟨h1, h2⟩, h3, h4⟩
        · simp
      · simp
    · simp
  · simp

/-- C20: on an input that splits on `|` into at least 4 parts, `stringToPackets`
returns (it does not panic), and it returns a value with no error exactly when
the first four parts are unsigned 64-bit decimals `a`, `b`, `c`, `d`; the value
is then Received = (a, b) and Transmitted = (c, d). -/
theorem stringToPackets_exact :
    (∀ s : Str, 4 ≤ (Split s "|".toList).length →
      stringToPackets s ≠ .panic ∧
      ∀ pk : PacketPair, stringToPackets s = .ret (pk, none) ↔
        IsUint64Decimal ((Split s "|".toList).getD 0 []) pk.Received.Count ∧
        IsUint64Decimal ((Split s "|".toList).getD 1 []) pk.Received.Errors ∧
        IsUint64Decimal ((Split s "|".toList).getD 2 []) pk.Transmitted.Count ∧
        IsUint64Decimal ((Split s "|".toList).getD 3 []) pk.Transmitted.Errors) ∧
    stringToPackets "20|0|30|0".toList = .ret (⟨⟨20, 0⟩, ⟨30, 0⟩⟩, none) ∧
    stringToPackets "100|1|200|2".toList = .ret (⟨⟨100, 1⟩, ⟨200, 2⟩⟩, none) ∧
    (∃ pk e, stringToPackets "|||".toList = .ret (pk, some e)) ∧
    (∃ pk e, stringToPackets "0|||".toList = .ret (pk, some e)) ∧
    (∃ pk e, stringToPackets "0|0|0|".toList = .ret (pk, some e)) ∧
    (∃ pk e, stringToPackets "foo|0|0|0".toList = .ret (pk, some e)) := by
  refine ⟨?_, by decide, by decide, ⟨_, _, rfl⟩, ⟨_, _, rfl⟩, ⟨_, _, rfl⟩, ⟨_, _, rfl⟩⟩
  intro s hlen
  rcases hsplit : Split s "|".toList with _ | ⟨p0, _ | ⟨p1, _ | ⟨p2, _ | ⟨p3, rest⟩⟩⟩⟩
  · rw [hsplit] at hlen; simp at hlen
  · rw [hsplit] at hlen; simp at hlen
  · rw [hsplit] at hlen; simp at hlen
  · rw [hsplit] at hlen; simp at hlen
  · refine ⟨(stringToPackets_of_four s p0 p1 p2 p3 rest hsplit ⟨⟨0, 0⟩, ⟨0, 0⟩⟩).1, fun pk => ?_⟩
    rw [(stringToPackets_of_four s p0 p1 p2 p3 rest hsplit pk).2]
    simp only [List.getD_cons_zero, List.getD_cons_succ, ParseUint_ok_iff]


/-- What a successful `stringToLineStats` says about the parts, and conversely. -/
theorem stringToLineStats_ok_iff (L : Float64Lib) (s : Str) (stats : LineStats L.F) :
    stringToLineStats L s = (stats, none) ↔
      8 ≤ (Split s "|".toList).length ∧
      stringToState ((Split s "|".toList).getD 0 []) = (stats.State, none) ∧
      ParseUint ((Split s "|".toList).getD 2 []) = (stats.Rates.Down, none) ∧
      ParseUint ((Split s "|".toList).getD 3 []) = (stats.Rates.Up, none) ∧
      stringToUintPair ((Split s "|".toList).getD 4 []) = (stats.SignalNoiseMargin, none) ∧
      stringToAttenuation L ((Split s "|".toList).getD 5 []) = (stats.Attenuation, none) ∧
      ParseUint ((Split s "|".toList).getD 6 []) = (stats.Retrains, none) ∧
      stringSecondsToDuration ((Split s "|".toList).getD 7 []) = (stats.Uptime, none) := by
  unfold stringToLineStats
  simp only
  rcases stats with ⟨st, ⟨up, down⟩, snr, att, retrains, uptime⟩
  by_cases hlen : (Split s "|".toList).length < 8
  · rw [if_pos hlen]
    simp only [Prod.mk.injEq, reduceCtorEq, and_false, false_iff]
    omega
  · rw [if_neg hlen]
    rcases h0 : stringToState ((Split s "|".toList).getD 0 []) with ⟨v0, _ | e0⟩
    · rcases h2 : ParseUint ((Split s "|".toList).getD 2 []) with ⟨v2, _ | e2⟩
      · rcases h3 : ParseUint ((Split s "|".toList).getD 3 []) with ⟨v3, _ | e3⟩
        · rcases h4 : stringToUintPair ((Split s "|".toList).getD 4 []) with ⟨v4, _ | e4⟩
          · rcases h5 : stringToAttenuation L ((Split s "|".toList).getD 5 []) with ⟨v5, _ | e5⟩
            · rcases h6 : ParseUint ((Split s "|".toList).getD 6 []) with ⟨v6, _ | e6⟩
              · rcases h7 : stringSecondsToDuration ((Split s "|".toList).getD 7 []) with
                  ⟨v7, _ | e7⟩
                · simp only [Prod.mk.injEq, LineStats.mk.injEq, Rates.mk.injEq, and_true]
                  constructor
                  · rintro ⟨a, ⟨b, c⟩, d, e, f, g⟩
                    exact ⟨by omega, a, c, b, d, e, f, g⟩
                  · rintro ⟨_, a, c, b, d, e, f, g⟩
                    exact ⟨a, ⟨b, c⟩, d, e, f, g⟩
                · simp
              · simp
            · simp
          · simp
        · simp
      · simp
    · simp

theorem stringToLineStats_congr (L : Float64Lib) (s other : Str)
    (h1 : 8 ≤ (Split s "|".toList).length) (h2 : 8 ≤ (Split other "|".toList).length)
    (h : ∀ i, i ≠ 1 → i < 8 →
      (Split other "|".toList).getD i [] = (Split s "|".toList).getD i []) :
    stringToLineStats L other = stringToLineStats L s := by
  unfold stringToLineStats
  simp only [if_neg (Nat.not_lt.2 h1), if_neg (Nat.not_lt.2 h2), h 0 (by omega) (by omega),
    h 2 (by omega) (by omega), h 3 (by omega) (by omega), h 4 (by omega) (by omega),
    h 5 (by omega) (by omega), h 6 (by omega) (by omega), h 7 (by omega) (by omega)]

/-- C14 (amended): `stringToLineStats` fails when the input splits on `|` into
fewer than 8 parts, and when one of the parts 0, 2, 3, 4, 5, 6, 7 is rejected by
its decoder.  Otherwise it returns a record with no error, whose State comes
from part 0, Rates.Down from part 2, Rates.Up from part 3, SignalNoiseMargin
from part 4, Attenuation from part 5, Retrains from part 6, and whose Uptime is
the count of seconds of part 7, exactly, when that count is within
`-9223372036 .. 9223372036` (the duration is the `int64` product of the count
with `10^9` nanoseconds).  Inputs with at least 8 parts that agree on every part
below 8 but part 1 give the same result. -/
theorem stringToLineStats_parts (L : Float64Lib) (s : Str) :
    ((Split s "|".toList).length < 8 → (stringToLineStats L s).2 ≠ none) ∧
    ((stringToState ((Split s "|".toList).getD 0 [])).2 ≠ none ∨
      (ParseUint ((Split s "|".toList).getD 2 [])).2 ≠ none ∨
      (ParseUint ((Split s "|".toList).getD 3 [])).2 ≠ none ∨
      (stringToUintPair ((Split s "|".toList).getD 4 [])).2 ≠ none ∨
      (stringToAttenuation L ((Split s "|".toList).getD 5 [])).2 ≠ none ∨
      (ParseUint ((Split s "|".toList).getD 6 [])).2 ≠ none ∨
      (stringSecondsToDuration ((Split s "|".toList).getD 7 [])).2 ≠ none →
      (stringToLineStats L s).2 ≠ none) ∧
    (8 ≤ (Split s "|".toList).length →
      (stringToState ((Split s "|".toList).getD 0 [])).2 = none →
      (ParseUint ((Split s "|".toList).getD 2 [])).2 = none →
      (ParseUint ((Split s "|".toList).getD 3 [])).2 = none →
      (stringToUintPair ((Split s "|".toList).getD 4 [])).2 = none →
      (stringToAttenuation L ((Split s "|".toList).getD 5 [])).2 = none →
      (ParseUint ((Split s "|".toList).getD 6 [])).2 = none →
      (stringSecondsToDuration ((Split s "|".toList).getD 7 [])).2 = none →
      ∃ stats, stringToLineStats L s = (stats, none) ∧
        stringToState ((Split s "|".toList).getD 0 []) = (stats.State, none) ∧
        IsUint64Decimal ((Split s "|".toList).getD 2 []) stats.Rates.Down ∧
        IsUint64Decimal ((Split s "|".toList).getD 3 []) stats.Rates.Up ∧
        stringToUintPair ((Split s "|".toList).getD 4 []) = (stats.SignalNoiseMargin, none) ∧
        stringToAttenuation L ((Split s "|".toList).getD 5 []) = (stats.Attenuation, none) ∧
        IsUint64Decimal ((Split s "|".toList).getD 6 []) stats.Retrains ∧
        ∃ n, ParseInt ((Split s "|".toList).getD 7 []) = (n, none) ∧
          stats.Uptime = wrapInt64 (n * 1000000000) ∧
          (-9223372036 ≤ n → n ≤ 9223372036 → stats.Uptime = n * 1000000000)) ∧
    (∀ other : Str, 8 ≤ (Split s "|".toList).length → 8 ≤ (Split other "|".toList).length →
      (∀ i, i ≠ 1 → i < 8 →
        (Split other "|".toList).getD i [] = (Split s "|".toList).getD i []) →
      stringToLineStats L other = stringToLineStats L s) := by
  have hinv : ∀ stats, stringToLineStats L s = (stats, none) → _ :=
    fun stats => (stringToLineStats_ok_iff L s stats).1
  have hnone : (stringToLineStats L s).2 = none →
      stringToLineStats L s = ((stringToLineStats L s).1, none) := fun h => by rw [← h]
  refine ⟨?_, ?_, ?_, fun other h1 h2 h => stringToLineStats_congr L s other h1 h2 h⟩
  · intro hlen h
    have := (hinv _ (hnone h)).1
    omega
  · intro hrej h
    obtain ⟨_, e0, e2, e3, e4, e5, e6, e7⟩ := hinv _ (hnone h)
    rw [e0, e2, e3, e4, e5, e6, e7] at hrej
    simp at hrej
  · intro hlen a0 a2 a3 a4 a5 a6 a7
    have hex : ∃ stats, stringToLineStats L s = (stats, none) := by
      refine ⟨⟨_, ⟨_, _⟩, _, _, _, _⟩, (stringToLineStats_ok_iff L s _).2
        ⟨hlen, eq_of_snd_none _ a0, eq_of_snd_none _ a2, eq_of_snd_none _ a3,
          eq_of_snd_none _ a4, eq_of_snd_none _ a5, eq_of_snd_none _ a6,
          eq_of_snd_none _ a7⟩⟩
    obtain ⟨stats, hst⟩ := hex
    obtain ⟨_, e0, e2, e3, e4, e5, e6, e7⟩ := hinv stats hst
    obtain ⟨n, hn1, hn2⟩ := stringSecondsToDuration_ok_inv _ _ e7
    refine ⟨stats, hst, e0, (ParseUint_ok_iff _ _).1 e2, (ParseUint_ok_iff _ _).1 e3, e4, e5,
      (ParseUint_ok_iff _ _).1 e6, n, hn1, hn2, fun h1 h2 => ?_⟩
    rw [hn2, wrapInt64_seconds_exact n h1 h2]


/-! ## Facts about `Contains`, `TrimSpace` and splitting on ` /` -/

theorem isPrefixOf_eq_true_iff (sub l : Str) :
    sub.isPrefixOf l = true ↔ ∃ t, l = sub ++ t := by
  induction sub generalizing l with
  | nil => simp
  | cons c cs ih =>
    cases l with
    | nil => simp
    | cons d ds =>
      rw [List.isPrefixOf_cons₂, Bool.and_eq_true, ih]
      simp only [beq_iff_eq, List.cons_append, List.cons.injEq]
      constructor
      · rintro ⟨h1, t, h2⟩; exact ⟨t, h1.symm, h2⟩
      · rintro ⟨t, h1, h2⟩; exact ⟨h1.symm, t, h2⟩

/-- The function `Contains` decides whether `substr` occurs in `s`. -/
theorem Contains_iff (s substr : Str) :
    Contains s substr = true ↔ ∃ a b, s = a ++ substr ++ b := by
  induction s with
  | nil =>
    rw [Contains, isPrefixOf_eq_true_iff]
    constructor
    · rintro ⟨t, h⟩
      exact ⟨[], t, by simpa using h⟩
    · rintro ⟨a, b, h⟩
      have h' := h.symm
      simp only [List.append_eq_nil] at h'
      exact ⟨[], by simp [h'.1.2]⟩
  | cons c cs ih =>
    rw [Contains, Bool.or_eq_true, isPrefixOf_eq_true_iff, ih]
    constructor
    · rintro (⟨t, h⟩ | ⟨a, b, h⟩)
      · exact ⟨[], t, by simpa using h⟩
      · exact ⟨c :: a, b, by simp [h]⟩
    · rintro ⟨a, b, h⟩
      cases a with
      | nil => exact Or.inl ⟨b, by simpa using h⟩
      | cons d a' =>
        simp only [List.cons_append, List.cons.injEq] at h
        exact Or.inr ⟨a', b, by simpa using h.2⟩

theorem Contains_eq_false_iff (s substr : Str) :
    Contains s substr = false ↔ ¬ ∃ a b, s = a ++ substr ++ b := by
  rw [← Contains_iff]
  simp

theorem spaceSlash_isPrefixOf (d : Char) (cs : Str) :
    [' ', '/'].isPrefixOf (d :: cs) = true ↔ d = ' ' ∧ ∃ r, cs = '/' :: r := by
  cases cs with
  | nil => simp
  | cons e r =>
    simp only [List.isPrefixOf_cons₂, List.isPrefixOf_nil_left, Bool.and_true, Bool.and_eq_true,
      beq_iff_eq, List.cons.injEq, exists_eq_right']
    constructor
    · rintro ⟨h1, h2⟩; exact ⟨h1.symm, h2.symm⟩
    · rintro ⟨h1, h2⟩; exact ⟨h1.symm, h2.symm⟩

theorem Contains_spaceSlash_cons (d : Char) (cs : Str) :
    Contains (d :: cs) [' ', '/'] = false ↔
      ¬ (d = ' ' ∧ ∃ r, cs = '/' :: r) ∧ Contains cs [' ', '/'] = false := by
  rw [Contains, Bool.or_eq_false_iff, ← spaceSlash_isPrefixOf, Bool.not_eq_true]

/-- A text without `/` has no occurrence of ` /`. -/
theorem Contains_spaceSlash_of_not_mem (v : Str) (h : '/' ∉ v) :
    Contains v [' ', '/'] = false := by
  rw [Contains_eq_false_iff]
  rintro ⟨a, b, rfl⟩
  exact h (by simp)

/-- Two texts without ` /`, joined by a character that is neither a space nor
`/`, have no occurrence of ` /`. -/
theorem Contains_spaceSlash_join (u v : Str) (e : Char) (he1 : e ≠ ' ') (he2 : e ≠ '/')
    (hu : Contains u [' ', '/'] = false) (hv : Contains v [' ', '/'] = false) :
    Contains (u ++ e :: v) [' ', '/'] = false := by
  induction u with
  | nil =>
    rw [List.nil_append, Contains_spaceSlash_cons]
    exact ⟨fun h => he1 h.1, hv⟩
  | cons d u' ih =>
    rw [Contains_spaceSlash_cons] at hu
    rw [List.cons_append, Contains_spaceSlash_cons]
    refine ⟨?_, ih hu.2⟩
    rintro ⟨hd, r, hr⟩
    cases u' with
    | nil =>
      simp only [List.nil_append, List.cons.injEq] at hr
      exact he2 hr.1
    | cons f u'' =>
      simp only [List.cons_append, List.cons.injEq] at hr
      exact hu.1 ⟨hd, u'', by rw [hr.1]⟩

theorem splitAux_spaceSlash_cons (d : Char) (cs acc : Str)
    (h : ¬ (d = ' ' ∧ ∃ r, cs = '/' :: r)) :
    splitAux [' ', '/'] (d :: cs) 0 acc = splitAux [' ', '/'] cs 0 (d :: acc) := by
  rw [splitAux, if_neg]
  rw [spaceSlash_isPrefixOf]
  exact h

/-- A text without ` /` is a single piece. -/
theorem splitAux_spaceSlash_none (s : Str) :
    ∀ acc : Str, Contains s [' ', '/'] = false →
      splitAux [' ', '/'] s 0 acc = [acc.reverse ++ s] := by
  induction s with
  | nil => intro acc _; simp [splitAux]
  | cons d cs ih =>
    intro acc h
    rw [Contains_spaceSlash_cons] at h
    rw [splitAux_spaceSlash_cons d cs acc h.1, ih _ h.2]
    simp

/-- The first piece ends at the first occurrence of ` /`. -/
theorem splitAux_spaceSlash_append (a b : Str) :
    ∀ acc : Str, Contains a [' ', '/'] = false →
      splitAux [' ', '/'] (a ++ ' ' :: '/' :: b) 0 acc =
        (acc.reverse ++ a) :: splitAux [' ', '/'] b 0 [] := by
  induction a with
  | nil =>
    intro acc _
    rw [List.nil_append, splitAux, if_pos (by simp [List.isPrefixOf_cons₂])]
    simp [splitAux]
  | cons d a' ih =>
    intro acc h
    rw [Contains_spaceSlash_cons] at h
    have hno : ¬ (d = ' ' ∧ ∃ r, a' ++ ' ' :: '/' :: b = '/' :: r) := by
      rintro ⟨hd, r, hr⟩
      cases a' with
      | nil =>
        simp only [List.nil_append, List.cons.injEq] at hr
        exact absurd hr.1 (by decide)
      | cons f a'' =>
        simp only [List.cons_append, List.cons.injEq] at hr
        exact h.1 ⟨hd, a'', by rw [hr.1]⟩
    rw [List.cons_append, splitAux_spaceSlash_cons d _ acc hno, ih _ h.2]
    simp

theorem Split_spaceSlash_pair (a b : Str) (ha : Contains a [' ', '/'] = false)
    (hb : Contains b [' ', '/'] = false) :
    Split (a ++ ' ' :: '/' :: b) [' ', '/'] = [a, b] := by
  simp [Split, splitAux_spaceSlash_append a b [] ha, splitAux_spaceSlash_none b [] hb]

theorem mem_dropWhile_of_false (p : Char → Bool) (c : Char) (l : Str) (hc : c ∈ l)
    (hp : p c = false) : c ∈ l.dropWhile p := by
  induction l with
  | nil => simp at hc
  | cons d l' ih =>
    rw [List.dropWhile_cons]
    rcases List.mem_cons.1 hc with rfl | h
    · simp [hp]
    · by_cases hd : p d = true
      · rw [if_pos hd]
        exact ih h
      · rw [if_neg hd]
        exact List.mem_cons_of_mem _ h

/-- A character that is not white space survives `TrimSpace`. -/
theorem mem_TrimSpace (c : Char) (s : Str) (hc : c ∈ s) (hs : isSpace c = false) :
    c ∈ TrimSpace s := by
  unfold TrimSpace
  rw [List.mem_reverse]
  apply mem_dropWhile_of_false _ _ _ _ hs
  rw [List.mem_reverse]
  exact mem_dropWhile_of_false _ _ _ hc hs


/-! ## Facts about the attenuation decoder -/

theorem stringToAttenuationFloat_tagged (L : Float64Lib) (tag t : Str)
    (h1 : ')' ∉ tag) (h2 : ')' ∉ t) :
    stringToAttenuationFloat L (tag ++ ')' :: t) = L.ParseFloat (TrimSpace t) := by
  unfold stringToAttenuationFloat
  have hs : Split (tag ++ ')' :: t) [')'] = [tag, t] :=
    (Split_single_eq_pair ')' _ tag t).2 ⟨rfl, h1, h2⟩
  simp [hs]

/-- When the text before the first `,` splits on ` /` into the halves `a` and
`b`, the attenuation decoder succeeds exactly when both halves decode, and it
then pairs their values: the first is Down, the second is Up. -/
theorem stringToAttenuation_of_halves (L : Float64Lib) (s a b : Str)
    (h : Split ((Split s ",".toList).getD 0 []) " /".toList = [a, b]) :
    ((stringToAttenuation L s).2 = none ↔
      (stringToAttenuationFloat L a).2 = none ∧ (stringToAttenuationFloat L b).2 = none) ∧
    ((stringToAttenuationFloat L a).2 = none → (stringToAttenuationFloat L b).2 = none →
      stringToAttenuation L s =
        ({ Up := (stringToAttenuationFloat L b).1, Down := (stringToAttenuationFloat L a).1 },
          none)) := by
  unfold stringToAttenuation
  simp only [h, List.length_cons, List.length_nil, ne_eq, not_true_eq_false, if_false,
    List.getD_cons_zero, List.getD_cons_succ]
  rcases ha : stringToAttenuationFloat L a with ⟨va, _ | ea⟩
  · rcases hb : stringToAttenuationFloat L b with ⟨vb, _ | eb⟩
    · simp
    · simp
  · simp

theorem Split_comma_head (s t : Str) (h : ',' ∉ s) :
    (Split (s ++ ',' :: t) ",".toList).getD 0 [] = s ∧ (Split s ",".toList).getD 0 [] = s := by
  have e : ",".toList = [','] := rfl
  rw [e, Split_single_append ',' s t h, Split_single_not_mem ',' s h]
  simp

/-- C16: what follows the first `,` is ignored by the attenuation decoder: for
a text `s` without `,` and any text `t`, decoding `s,t` gives the same outcome
(the same value and error) as decoding `s`. -/
theorem stringToAttenuation_ignores_after_comma (L : Float64Lib) (s t : Str)
    (h : ',' ∉ s) :
    stringToAttenuation L (s ++ ",".toList ++ t) = stringToAttenuation L s := by
  have e : s ++ ",".toList ++ t = s ++ ',' :: t := by simp
  have hh := Split_comma_head s t h
  unfold stringToAttenuation
  rw [e]
  simp only [hh.1, hh.2]

/-- C15 (amended): for a comma-free input `(T1)x /(T2)y` whose tags contain no
`)` and no ` /`, and whose `x` and `y`, trimmed of white space, are accepted by
the float parser (which, like `strconv.ParseFloat`, accepts no text with `)` or
`/`), `stringToAttenuation` succeeds with Down the float of `x` and Up the
float of `y`. -/
theorem stringToAttenuation_tagged_pair (L : Float64Lib) (hL : L.RejectsDelimiters)
    (T1 T2 x y : Str) (fx fy : L.F)
    (hcomma : ',' ∉ "(".toList ++ T1 ++ ")".toList ++ x ++ " /".toList ++
      "(".toList ++ T2 ++ ")".toList ++ y)
    (h1 : ')' ∉ T1) (h2 : ')' ∉ T2)
    (h1s : ¬ ∃ u v, T1 = u ++ " /".toList ++ v) (h2s : ¬ ∃ u v, T2 = u ++ " /".toList ++ v)
    (hx : L.ParseFloat (TrimSpace x) = (fx, none))
    (hy : L.ParseFloat (TrimSpace y) = (fy, none)) :
    stringToAttenuation L ("(".toList ++ T1 ++ ")".toList ++ x ++ " /".toList ++
      "(".toList ++ T2 ++ ")".toList ++ y) = ({ Up := fy, Down := fx }, none) := by
  have key : ∀ (T z : Str) (fz : L.F), ')' ∉ T → (¬ ∃ u v, T = u ++ " /".toList ++ v) →
      L.ParseFloat (TrimSpace z) = (fz, none) →
      Contains ('(' :: T ++ ')' :: z) [' ', '/'] = false ∧
        stringToAttenuationFloat L ('(' :: T ++ ')' :: z) = (fz, none) := by
    intro T z fz hT hTs hz
    have hd := hL _ _ hz
    have hz1 : ')' ∉ z := fun hm => hd.1 (mem_TrimSpace _ _ hm (by decide))
    have hz2 : '/' ∉ z := fun hm => hd.2 (mem_TrimSpace _ _ hm (by decide))
    constructor
    · have hTc : Contains T [' ', '/'] = false := (Contains_eq_false_iff _ _).2 hTs
      have hin := Contains_spaceSlash_join T z ')' (by decide) (by decide) hTc
        (Contains_spaceSlash_of_not_mem z hz2)
      exact Contains_spaceSlash_join [] _ '(' (by decide) (by decide) rfl hin
    · have := stringToAttenuationFloat_tagged L ('(' :: T) z
        (by simp only [List.mem_cons, not_or]; exact ⟨by decide, hT⟩) hz1
      rw [this, hz]
  obtain ⟨ca, fa⟩ := key T1 x fx h1 h1s hx
  obtain ⟨cb, fb⟩ := key T2 y fy h2 h2s hy
  have e : "(".toList ++ T1 ++ ")".toList ++ x ++ " /".toList ++ "(".toList ++ T2 ++
      ")".toList ++ y = ('(' :: T1 ++ ')' :: x) ++ ' ' :: '/' :: ('(' :: T2 ++ ')' :: y) := by
    simp
  rw [e] at hcomma ⊢
  have hpre : (Split (('(' :: T1 ++ ')' :: x) ++ ' ' :: '/' :: ('(' :: T2 ++ ')' :: y))
      ",".toList).getD 0 [] = ('(' :: T1 ++ ')' :: x) ++ ' ' :: '/' :: ('(' :: T2 ++ ')' :: y) := by
    have e2 : ",".toList = [','] := rfl
    rw [e2, Split_single_not_mem ',' _ hcomma]
    rfl
  have hsplit : Split ((Split (('(' :: T1 ++ ')' :: x) ++ ' ' :: '/' :: ('(' :: T2 ++ ')' :: y))
      ",".toList).getD 0 []) " /".toList = ['(' :: T1 ++ ')' :: x, '(' :: T2 ++ ')' :: y] := by
    rw [hpre]
    exact Split_spaceSlash_pair _ _ ca cb
  have := (stringToAttenuation_of_halves L _ _ _ hsplit).2 (by rw [fa]) (by rw [fb])
  rw [this, fa, fb]

/-- The stand-in float parser accepts digits and at most one point, so no text
with `)` or `/`. -/
theorem decimalLib_rejectsDelimiters : decimalLib.RejectsDelimiters := by
  intro t v h
  have key : ∀ c : Char, (c.toNat < 48 ∨ 57 < c.toNat) → c ≠ '.' → c ∉ t := by
    intro c hc hdot
    rcases hsp : Split t ['.'] with _ | ⟨a, _ | ⟨b, _ | ⟨d, rest⟩⟩⟩
    · have := Split_single_length '.' t
      rw [hsp] at this
      simp at this
    · have ht := ((Split_single_eq_one '.' t a).1 hsp).1
      rcases ha : ParseUint a with ⟨va, _ | ea⟩
      · rw [ht]
        exact digits_not_mem a c ((ParseUint_ok_iff a va).1 ha).2.1 hc
      · simp [decimalLib, hsp, ha] at h
    · have ht := ((Split_single_eq_pair '.' t a b).1 hsp).1
      rcases ha : ParseUint a with ⟨va, _ | ea⟩
      · rcases hb : ParseUint b with ⟨vb, _ | eb⟩
        · rw [ht]
          simp only [List.mem_append, List.mem_cons, not_or]
          exact ⟨digits_not_mem a c ((ParseUint_ok_iff a va).1 ha).2.1 hc, hdot,
            digits_not_mem b c ((ParseUint_ok_iff b vb).1 hb).2.1 hc⟩
        · simp [decimalLib, hsp, ha, hb] at h
      · simp [decimalLib, hsp, ha] at h
    · simp [decimalLib, hsp] at h
  exact ⟨key ')' (Or.inl (by decide)) (by decide), key '/' (Or.inl (by decide)) (by decide)⟩

/-- The decoders on the inputs of the repository's tests. -/
theorem decoders_on_test_inputs :
    stringToAttenuation decimalLib "(DS1)26.6 /(US1)13.1".toList =
      (⟨(131, 1), (266, 1)⟩, none) ∧
    stringToLineStats decimalLib "Up|PTM|10000|2000|9/7|(DS1)26.6 /(US1)13.1|2|1000|0".toList =
      (⟨.Up, ⟨2000, 10000⟩, ⟨7, 9⟩, ⟨(131, 1), (266, 1)⟩, 2, 1000000000000⟩, none) ∧
    stringToLineStats decimalLib
        "Up|PTM|10000|2000|9/7|(DS1)26.6 /(US1)13.1, (US2)70.0 |2|1000|0".toList =
      (⟨.Up, ⟨2000, 10000⟩, ⟨7, 9⟩, ⟨(131, 1), (266, 1)⟩, 2, 1000000000000⟩, none) ∧
    (stringToLineStats decimalLib "".toList).2 ≠ none ∧
    (stringToLineStats decimalLib "|||||||".toList).2 ≠ none ∧
    (stringToLineStats decimalLib
      "Up|PTM|10000|2000|9/7|(DS1)26.6/(US1)13.1|2|1000|0".toList).2 ≠ none ∧
    (stringToLineStats decimalLib
      "Up|PTM|10000|2000|9/7|(DS1)26.6 /(US13.1|2|1000|0".toList).2 ≠ none ∧
    (stringToLineStats decimalLib
      "Up|PTM|10000|2000|9/7|(DS1)26.6 /(US1)13.1|-1|1000|0".toList).2 ≠ none := by
  decide

/-- C15 (counterexample): the comma-free input `(a /b)1 /(c)2` has the form
`(T1)x /(T2)y` with tags `a /b` and `c` that contain no `)` and with `x = 1` and
`y = 2` accepted by the float parser, and `stringToAttenuation` fails on it: the
text splits on ` /` into three pieces. -/
theorem stringToAttenuation_tag_with_separator_fails :
    "(a /b)1 /(c)2".toList = "(".toList ++ "a /b".toList ++ ")".toList ++ "1".toList ++
      " /".toList ++ "(".toList ++ "c".toList ++ ")".toList ++ "2".toList ∧
    ',' ∉ "(a /b)1 /(c)2".toList ∧ ')' ∉ "a /b".toList ∧ ')' ∉ "c".toList ∧
    decimalLib.ParseFloat (TrimSpace "1".toList) = ((1, 0), none) ∧
    decimalLib.ParseFloat (TrimSpace "2".toList) = ((2, 0), none) ∧
    stringToAttenuation decimalLib "(a /b)1 /(c)2".toList =
      (⟨(0, 0), (0, 0)⟩, some (.errorf "Unexpected number of fields in a pair: %d" (.int 3))) := by
  decide

/-- C15 (amended) at the input `(DS1)26.6 /(US1)13.1` of the tests. -/
theorem stringToAttenuation_tagged_pair_witness :
    stringToAttenuation decimalLib ("(".toList ++ "DS1".toList ++ ")".toList ++ "26.6".toList ++
      " /".toList ++ "(".toList ++ "US1".toList ++ ")".toList ++ "13.1".toList) =
      ({ Up := (131, 1), Down := (266, 1) }, none) :=
  stringToAttenuation_tagged_pair decimalLib decimalLib_rejectsDelimiters
    "DS1".toList "US1".toList "26.6".toList "13.1".toList (266, 1) (131, 1)
    (by decide) (by decide) (by decide)
    ((Contains_eq_false_iff _ _).1 (by decide)) ((Contains_eq_false_iff _ _).1 (by decide))
    (by decide) (by decide)

/-- C16 at the attenuation field of the newer firmware in the tests. -/
theorem stringToAttenuation_ignores_after_comma_witness :
    ',' ∉ "(DS1)26.6 /(US1)13.1".toList ∧
    stringToAttenuation decimalLib
        ("(DS1)26.6 /(US1)13.1".toList ++ ",".toList ++ " (US2)70.0 ".toList) =
      stringToAttenuation decimalLib "(DS1)26.6 /(US1)13.1".toList :=
  ⟨by decide, stringToAttenuation_ignores_after_comma decimalLib
    "(DS1)26.6 /(US1)13.1".toList " (US2)70.0 ".toList (by decide)⟩

/-- C11: `Login` issues one request and its result is decided by three things
only: when the client fails, or reading the body fails, it returns that error;
when the body arrives and contains `msg=err` it returns an error; when the body
arrives and does not contain `msg=err` it returns no error. -/
theorem Login_outcome (c : Context) (h : List Request) (username password : Str) :
    (c.Login h username password).1 = h ++ [loginRequest c username password] ∧
    (∀ e, c.client h (loginRequest c username password) = .error e →
      (c.Login h username password).2 = some e) ∧
    (∀ r e, c.client h (loginRequest c username password) = .ok r → r.readErr = some e →
      (c.Login h username password).2 = some e) ∧
    (∀ r, c.client h (loginRequest c username password) = .ok r → r.readErr = none →
      (∃ a b, r.body = a ++ "msg=err".toList ++ b) →
      (c.Login h username password).2 = some (.new "User name or password incorrect")) ∧
    (∀ r, c.client h (loginRequest c username password) = .ok r → r.readErr = none →
      (¬ ∃ a b, r.body = a ++ "msg=err".toList ++ b) →
      (c.Login h username password).2 = none) := by
  unfold Context.Login
  refine ⟨?_, ?_, ?_, ?_, ?_⟩
  · split
    · rfl
    · split
      · rfl
      · split <;> rfl
  · intro e he
    simp only [he]
  · intro r e hr hre
    simp only [hr, hre]
  · intro r hr hre hc
    have hc' := (Contains_iff _ _).2 hc
    simp only [hr, hre, hc', if_true]
  · intro r hr hre hc
    have hc' := (Contains_eq_false_iff _ _).2 hc
    simp only [hr, hre, hc']
    rfl

/-! ## Facts about short packet fields, the sign of durations and halves with several `)` -/

/-- C21 (failing inputs): on `1`, `1|2` and `1|2|3`, which split on `|` into
1, 2 and 3 parts, `stringToPackets` does not return an error: it indexes past
the parts it has and panics; and so it does on every input with fewer than 4
parts whose parts are all unsigned decimals.  (The empty input returns an
error only because its single part is rejected first.) -/
theorem stringToPackets_panics_below_four_parts :
    (Split "1".toList "|".toList).length = 1 ∧ stringToPackets "1".toList = .panic ∧
    (Split "1|2".toList "|".toList).length = 2 ∧ stringToPackets "1|2".toList = .panic ∧
    (Split "1|2|3".toList "|".toList).length = 3 ∧ stringToPackets "1|2|3".toList = .panic ∧
    (∃ pk e, stringToPackets "".toList = .ret (pk, some e)) ∧
    (∀ s : Str, (Split s "|".toList).length < 4 →
      (∀ p ∈ Split s "|".toList, (ParseUint p).2 = none) → stringToPackets s = .panic) := by
  refine ⟨by decide, by decide, by decide, by decide, by decide, by decide, ⟨_, _, rfl⟩, ?_⟩
  intro s hlen hall
  have hp : ∀ p ∈ Split s "|".toList, ∃ v, ParseUint p = (v, none) :=
    fun p hp => ⟨_, eq_of_snd_none _ (hall p hp)⟩
  unfold stringToPackets
  rcases hsplit : Split s "|".toList with _ | ⟨p0, _ | ⟨p1, _ | ⟨p2, _ | ⟨p3, rest⟩⟩⟩⟩
  · simp
  · rw [hsplit] at hp
    obtain ⟨v0, h0⟩ := hp p0 (by simp)
    simp [h0]
  · rw [hsplit] at hp
    obtain ⟨v0, h0⟩ := hp p0 (by simp)
    obtain ⟨v1, h1⟩ := hp p1 (by simp)
    simp [h0, h1]
  · rw [hsplit] at hp
    obtain ⟨v0, h0⟩ := hp p0 (by simp)
    obtain ⟨v1, h1⟩ := hp p1 (by simp)
    obtain ⟨v2, h2⟩ := hp p2 (by simp)
    simp [h0, h1, h2]
  · rw [hsplit] at hlen
    simp only [List.length_cons] at hlen
    omega

/-- The sign of a duration that `stringSecondsToDuration` returns: it is that
of the signed decimal of the field as long as the count of seconds is within
`-9223372036 .. 9223372036`. -/
theorem stringSecondsToDuration_sign (s : Str) (d : Int)
    (h : stringSecondsToDuration s = (d, none)) :
    ∃ n, ParseInt s = (n, none) ∧ d = wrapInt64 (n * 1000000000) ∧
      (0 ≤ n → n ≤ 9223372036 → 0 ≤ d) ∧ (n < 0 → -9223372036 ≤ n → d < 0) := by
  obtain ⟨n, h1, h2⟩ := stringSecondsToDuration_ok_inv s d h
  refine ⟨n, h1, h2, fun a b => ?_, fun a b => ?_⟩
  · rw [h2, wrapInt64_seconds_exact n (by omega) b]
    omega
  · rw [h2, wrapInt64_seconds_exact n b (by omega)]
    omega

/-- C22 (counterexample): a blob whose counts of seconds carry a minus sign
decodes successfully, and UnavailableSeconds, ModemUptime and LineStats.Uptime
are negative; so is the Uptime that `stringToLineStats` returns for part 7
equal to `-5`. -/
theorem durations_negative_after_successful_decode :
    (∃ st, ParseStatus decimalLib blobNegativeSeconds = .ret (some st, none) ∧
      st.UnavailableSeconds = -12000000000 ∧ st.ModemUptime = -86400000000000 ∧
      st.LineStats.Uptime = -1000000000000 ∧
      st.UnavailableSeconds < 0 ∧ st.ModemUptime < 0 ∧ st.LineStats.Uptime < 0) ∧
    (∃ stats, stringToLineStats decimalLib
        "Up|PTM|10000|2000|9/7|(DS1)26.6 /(US1)13.1|2|-5|0".toList = (stats, none) ∧
      stats.Uptime = -5000000000 ∧ stats.Uptime < 0) := by
  refine ⟨⟨{ status28 with
      LineStats := { status28.LineStats with Uptime := -1000000000000 }
      UnavailableSeconds := -12000000000
      ModemUptime := -86400000000000
      LineRates := [⟨⟨100, 200⟩, .Up⟩] }, by decide, by decide, by decide, by decide, by decide,
      by decide, by decide⟩,
    ⟨⟨.Up, ⟨2000, 10000⟩, ⟨7, 9⟩, ⟨(131, 1), (266, 1)⟩, 2, -5000000000⟩, by decide, by decide,
      by decide⟩⟩

/-- C22 (amended): the counts of seconds are read as signed decimals, so for a
blob that `ParseStatus` decodes, each of UnavailableSeconds, ModemUptime and
LineStats.Uptime is the `int64` nanoseconds of the signed decimal `n` of its
field (field 10, field 12, part 7 of field 4); it is at least 0 when
`0 ≤ n ≤ 9223372036` and negative when `-9223372036 ≤ n < 0`.  The same holds
for the Uptime of every input that `stringToLineStats` decodes. -/
theorem durations_sign_follows_field (L : Float64Lib) (input : Str) (st : Status L.F)
    (h : ParseStatus L input = .ret (some st, none)) :
    (∃ n, ParseInt ((statusFields input).getD 10 []) = (n, none) ∧
      st.UnavailableSeconds = wrapInt64 (n * 1000000000) ∧
      (0 ≤ n → n ≤ 9223372036 → 0 ≤ st.UnavailableSeconds) ∧
      (n < 0 → -9223372036 ≤ n → st.UnavailableSeconds < 0)) ∧
    (∃ n, ParseInt ((statusFields input).getD 12 []) = (n, none) ∧
      st.ModemUptime = wrapInt64 (n * 1000000000) ∧
      (0 ≤ n → n ≤ 9223372036 → 0 ≤ st.ModemUptime) ∧
      (n < 0 → -9223372036 ≤ n → st.ModemUptime < 0)) ∧
    (∃ n, ParseInt ((Split ((statusFields input).getD 4 []) "|".toList).getD 7 []) = (n, none) ∧
      st.LineStats.Uptime = wrapInt64 (n * 1000000000) ∧
      (0 ≤ n → n ≤ 9223372036 → 0 ≤ st.LineStats.Uptime) ∧
      (n < 0 → -9223372036 ≤ n → st.LineStats.Uptime < 0)) ∧
    (∀ (s : Str) (stats : LineStats L.F), stringToLineStats L s = (stats, none) →
      ∃ n, ParseInt ((Split s "|".toList).getD 7 []) = (n, none) ∧
        stats.Uptime = wrapInt64 (n * 1000000000) ∧
        (0 ≤ n → n ≤ 9223372036 → 0 ≤ stats.Uptime) ∧
        (n < 0 → -9223372036 ≤ n → stats.Uptime < 0)) := by
  have inv := ParseStatus_ok_inv L input st h
  have hls : ∀ (s : Str) (stats : LineStats L.F), stringToLineStats L s = (stats, none) →
      ∃ n, ParseInt ((Split s "|".toList).getD 7 []) = (n, none) ∧
        stats.Uptime = wrapInt64 (n * 1000000000) ∧
        (0 ≤ n → n ≤ 9223372036 → 0 ≤ stats.Uptime) ∧
        (n < 0 → -9223372036 ≤ n → stats.Uptime < 0) := fun s stats hs =>
    stringSecondsToDuration_sign _ _ ((stringToLineStats_ok_iff L s stats).1 hs).2.2.2.2.2.2.2
  exact ⟨stringSecondsToDuration_sign _ _ inv.2.2.2.2.2.2.2.2.2.2.1,
    stringSecondsToDuration_sign _ _ inv.2.2.2.2.2.2.2.2.2.2.2.2.1,
    hls _ _ inv.2.2.2.2.1, hls⟩

/-- C22 (amended) at a blob whose counts of seconds are 12, 86400 and 1000. -/
theorem durations_sign_follows_field_witness :
    ParseStatus decimalLib blob28 = .ret (some status28, none) ∧
    ∃ n, ParseInt ((statusFields blob28).getD 10 []) = (n, none) ∧
      status28.UnavailableSeconds = wrapInt64 (n * 1000000000) :=
  ⟨ParseStatus_blob28, by
    obtain ⟨⟨n, h1, h2, _⟩, _⟩ :=
      durations_sign_follows_field decimalLib blob28 status28 ParseStatus_blob28
    exact ⟨n, h1, h2⟩⟩

/-- C23 (counterexample): the half `(a)(b)1.5` contains `)`, the text after its
last `)` is `1.5`, which the float parser accepts, and
`stringToAttenuationFloat` fails on it: the half splits on `)` into three
pieces. -/
theorem stringToAttenuationFloat_two_parens_fails :
    "(a)(b)1.5".toList = "(a)(b".toList ++ ")".toList ++ "1.5".toList ∧
    ')' ∉ "1.5".toList ∧
    decimalLib.ParseFloat (TrimSpace "1.5".toList) = ((15, 1), none) ∧
    stringToAttenuationFloat decimalLib "(a)(b)1.5".toList =
      ((0, 0), some (.errorf "Unexpected number of fields in attenuation string: %d"
        (.int 3))) := by
  decide

/-- C23 (amended): on a half with exactly one `)`, that is `tag)t` with no `)`
in `tag` and `t`, `stringToAttenuationFloat` returns what the float parser
gives for `t` trimmed of white space; a half with more than one `)` fails,
whatever follows the last `)`. -/
theorem stringToAttenuationFloat_one_paren (L : Float64Lib) (s : Str) :
    (∀ tag t, s = tag ++ ")".toList ++ t → ')' ∉ tag → ')' ∉ t →
      stringToAttenuationFloat L s = L.ParseFloat (TrimSpace t)) ∧
    (2 ≤ s.count ')' → (stringToAttenuationFloat L s).2 ≠ none) := by
  constructor
  · intro tag t hs h1 h2
    have e : tag ++ ")".toList ++ t = tag ++ ')' :: t := by simp
    rw [hs, e]
    exact stringToAttenuationFloat_tagged L tag t h1 h2
  · intro hc
    unfold stringToAttenuationFloat
    have hlen : (Split s ")".toList).length ≠ 2 := by
      have e : ")".toList = [')'] := rfl
      rw [e, Split_single_length]
      omega
    simp only [if_pos hlen]
    simp

/-- C23 (amended) at the halves `(DS1)10.0` of the tests and `(a)(b)1.5`. -/
theorem stringToAttenuationFloat_one_paren_witness :
    stringToAttenuationFloat decimalLib "(DS1)10.0".toList = ((100, 1), none) ∧
    (stringToAttenuationFloat decimalLib "(a)(b)1.5".toList).2 ≠ none :=
  ⟨((stringToAttenuationFloat_one_paren decimalLib "(DS1)10.0".toList).1
      "(DS1".toList "10.0".toList (by decide) (by decide) (by decide)).trans (by decide),
    (stringToAttenuationFloat_one_paren decimalLib "(a)(b)1.5".toList).2 (by decide)⟩

/-! ## Counts of seconds beyond the range of an `int64` count of nanoseconds -/

/-- C14 (counterexample): on a record of 9 parts in which every part decodes
and part 7 is `9223372037`, a count of seconds that `ParseInt` accepts,
`stringToLineStats` succeeds and Uptime is not 9223372037 seconds: the `int64`
product wraps to -9223372036709551616 nanoseconds. -/
theorem stringToLineStats_uptime_beyond_int64 :
    ∃ stats, stringToLineStats decimalLib
        "Up|PTM|10000|2000|9/7|(DS1)26.6 /(US1)13.1|2|9223372037|0".toList = (stats, none) ∧
      (Split "Up|PTM|10000|2000|9/7|(DS1)26.6 /(US1)13.1|2|9223372037|0".toList
        "|".toList).getD 7 [] = "9223372037".toList ∧
      ParseInt "9223372037".toList = (9223372037, none) ∧
      stats.Uptime = -9223372036709551616 ∧
      stats.Uptime ≠ 9223372037 * 1000000000 :=
  ⟨⟨.Up, ⟨2000, 10000⟩, ⟨7, 9⟩, ⟨(131, 1), (266, 1)⟩, 2, -9223372036709551616⟩, by decide,
    by decide, by decide, by decide, by decide⟩

/-- C14 (amended) at the record of the tests, whose part 7 is `1000`: every part
decodes and Uptime is 1000 seconds. -/
theorem stringToLineStats_parts_witness :
    ∃ stats, stringToLineStats decimalLib
        "Up|PTM|10000|2000|9/7|(DS1)26.6 /(US1)13.1|2|1000|0".toList = (stats, none) ∧
      IsUint64Decimal "10000".toList stats.Rates.Down ∧
      IsUint64Decimal "2000".toList stats.Rates.Up ∧
      stats.Uptime = 1000 * 1000000000 := by
  obtain ⟨stats, h, _, h2, h3, _, _, _, n, hn, _, hex⟩ :=
    (stringToLineStats_parts decimalLib
      "Up|PTM|10000|2000|9/7|(DS1)26.6 /(US1)13.1|2|1000|0".toList).2.2.1
      (by decide) (by decide) (by decide) (by decide) (by decide) (by decide) (by decide)
      (by decide)
  have e2 : (Split "Up|PTM|10000|2000|9/7|(DS1)26.6 /(US1)13.1|2|1000|0".toList
      "|".toList).getD 2 [] = "10000".toList := by decide
  have e3 : (Split "Up|PTM|10000|2000|9/7|(DS1)26.6 /(US1)13.1|2|1000|0".toList
      "|".toList).getD 3 [] = "2000".toList := by decide
  have e7 : ParseInt ((Split "Up|PTM|10000|2000|9/7|(DS1)26.6 /(US1)13.1|2|1000|0".toList
      "|".toList).getD 7 []) = (1000, none) := by decide
  rw [e2] at h2
  rw [e3] at h3
  rw [e7] at hn
  have hn' : n = 1000 := (Prod.mk.inj hn).1.symm
  subst hn'
  exact ⟨stats, h, h2, h3, hex (by omega) (by omega)⟩

end Actiontec
